import Mathlib

/-!
Shallow embedding of the gemara layer-1 segmentation / storage / validation /
conversion / coverage pipeline (Go), together with theorems settling the
specification claims.  Machine integers are modelled as `Nat`/`Int` (all the
integers this code manipulates are small and non-negative), `float64` values
as exact rationals `ℚ`, `time.Time` as an `Int` parameter threaded through
the operations, and JSON/YAML (un)marshalling as the identity on the
in-memory values.
-/

namespace GemaraPipeline

/-! ### Character and string helpers

These mirror the Go `regexp` (RE2) character classes and the `strings`
package functions used by the pipeline.  Unicode simple case folding is
modelled for ASCII letters only (every string the segmentation rules
compare against is ASCII). -/

/-- The RE2 class `\s`, i.e. `[\t\n\f\r ]`. -/
def re2Space (c : Char) : Bool :=
  c = ' ' || c = '\t' || c = '\n' || c = '\x0c' || c = '\r'

/-- `unicode.IsSpace`, the class trimmed by `strings.TrimSpace`. -/
def goIsSpace (c : Char) : Bool :=
  let n := c.toNat
  n = 0x20 || (0x9 ≤ n && n ≤ 0xd) || n = 0x85 || n = 0xa0 ||
  n = 0x1680 || (0x2000 ≤ n && n ≤ 0x200a) || n = 0x2028 || n = 0x2029 ||
  n = 0x202f || n = 0x205f || n = 0x3000

/-- Lower-case an ASCII letter, leave anything else unchanged. -/
def asciiLower (c : Char) : Char :=
  if 'A' ≤ c && c ≤ 'Z' then Char.ofNat (c.toNat + 32) else c

/-- `strings.TrimSpace`. -/
def trimGo (s : String) : String :=
  ⟨((s.data.dropWhile goIsSpace).reverse.dropWhile goIsSpace).reverse⟩

/-- `strings.ToLower`, modelled for ASCII. -/
def toLowerGo (s : String) : String :=
  ⟨s.data.map asciiLower⟩

/-- Does `l` start with `p`? -/
def startsWithList : List Char → List Char → Bool
  | _, [] => true
  | [], _ :: _ => false
  | c :: cs, p :: ps => c = p && startsWithList cs ps

/-- Does `l` contain `sub` as a contiguous run? -/
def containsList (l sub : List Char) : Bool :=
  match l with
  | [] => sub.isEmpty
  | _ :: cs => startsWithList l sub || containsList cs sub

/-- `strings.Contains s sub`. -/
def containsGo (s sub : String) : Bool :=
  containsList s.data sub.data

/-- Case-insensitively strip the literal `pat` from the front of `cs`,
returning the rest on success. -/
def stripPrefixCI : List Char → List Char → Option (List Char)
  | [], cs => some cs
  | _ :: _, [] => none
  | p :: ps, c :: cs =>
    if asciiLower c = asciiLower p then stripPrefixCI ps cs else none

def splitChAux (sep : Char) (acc : List Char) : List Char → List (List Char)
  | [] => [acc.reverse]
  | c :: cs =>
    if c = sep then acc.reverse :: splitChAux sep [] cs
    else splitChAux sep (c :: acc) cs

/-- `strings.Split s (String.singleton sep)` for a one-character separator. -/
def splitCh (sep : Char) (s : String) : List String :=
  (splitChAux sep [] s.data).map fun l => ⟨l⟩

/-- Matcher for a trailing `\s{0 or 1+}([^\n]+)` (equivalently `(.+)`) of an
RE2 pattern: greedy whitespace with backtracking into the final capture
group.  Returns the text of the capture group. -/
def wsGroupTail (atLeastOne : Bool) (cs : List Char) : Option String :=
  let ws := cs.takeWhile re2Space
  let rest := cs.drop ws.length
  if atLeastOne && ws.isEmpty then none
  else
    match rest with
    | _ :: _ => some ⟨rest.takeWhile (· ≠ '\n')⟩
    | [] =>
      -- the group must backtrack into the whitespace run; it can take at
      -- most one character (everything after it is more whitespace), and
      -- that character must not be a newline
      let avail := if atLeastOne then ws.drop 1 else ws
      match avail.reverse.dropWhile (· = '\n') with
      | [] => none
      | c :: _ => some ⟨[c]⟩

/-- Scan for the leftmost position at which `attempt` succeeds
(`regexp.FindStringSubmatch` on an unanchored pattern). -/
def scanFor (attempt : List Char → Option α) : List Char → Option α
  | [] => attempt []
  | c :: cs =>
    match attempt (c :: cs) with
    | some r => some r
    | none => scanFor attempt cs

/-! ### Pipeline data model (`layer1/pipeline/types/types.go`)

`float64` fields are modelled as `ℚ`, `time.Time` as `Int`, and the
(always non-negative) version counters as `Nat`. -/

inductive BlockType
  | heading | paragraph | list | table | code | footnote | caption
  deriving DecidableEq, Repr

structure BBox where
  X1 : ℚ
  Y1 : ℚ
  X2 : ℚ
  Y2 : ℚ
  deriving DecidableEq, Repr

structure ListItem where
  Level : Int
  Marker : String
  Typ : String
  deriving DecidableEq, Repr

structure TableData where
  Rows : List (List String)
  deriving DecidableEq, Repr

structure Block where
  Typ : BlockType
  Level : Int
  Text : String
  BBox : Option BBox := none
  FontSize : ℚ := 0
  FontWeight : String := ""
  FontName : String := ""
  ListItem : Option ListItem := none
  TableData : Option TableData := none
  deriving DecidableEq, Repr

structure Page where
  PageNumber : Int
  Blocks : List Block
  deriving DecidableEq, Repr

structure ParsedMetadata where
  SourceFile : String
  Parser : String
  ParsedAt : Int
  Version : Nat
  DocumentID : String
  deriving DecidableEq, Repr

structure ParsedDocument where
  Metadata : ParsedMetadata
  Pages : List Page
  deriving DecidableEq, Repr

structure DocumentMetadata where
  ID : String
  Title : String
  Description : String
  Author : String
  Version : String
  PublicationDate : String
  DocumentType : String
  Jurisdictions : List String
  IndustrySectors : List String
  deriving DecidableEq, Repr

structure SegmentPart where
  ID : String
  Title : String := ""
  Text : String
  Recommendations : List String := []
  deriving DecidableEq, Repr

structure SegmentGuideline where
  ID : String
  Title : String
  Objective : String := ""
  Recommendations : List String := []
  Parts : List SegmentPart := []
  deriving DecidableEq, Repr

structure SegmentCategory where
  ID : String
  Title : String
  Description : String := ""
  Guidelines : List SegmentGuideline := []
  deriving DecidableEq, Repr

structure SegmentedMetadata where
  SourceVersion : Nat
  Segmenter : String
  SegmentedAt : Int
  Version : Nat
  DocumentID : String
  deriving DecidableEq, Repr

/-- Modelled from the spec: the repository's `types.UnmappedContent`
(an unmapped-content item feeding coverage and gap analysis) is consumed by
the coverage analyzer but its declaration is not among the provided sources;
the fields are those the coverage analyzer reads
(`Content`, `ContentType`, `SuggestedField`). -/
structure UnmappedContent where
  Content : String
  ContentType : String
  SuggestedField : String
  deriving DecidableEq, Repr

structure SegmentedDocument where
  Metadata : SegmentedMetadata
  DocumentMetadata : DocumentMetadata
  FrontMatter : String
  Categories : List SegmentCategory
  /-- Modelled from the spec: the `UnmappedContent` field of a segmented
  document is defined but never populated by the segmenters; the coverage
  analyzer reads it. -/
  UnmappedContent : List UnmappedContent := []
  deriving DecidableEq, Repr

/-! ### Generic segmentation rules (`layer1/pipeline/segmenter/segmenter.go`)

Each `regexp.MustCompile(...).FindStringSubmatch` of the generic rule set is
implemented as an executable matcher.  The three structural patterns are
anchored and deterministic (greedy runs of digits/whitespace followed by a
character outside the run's class leave no backtracking choices), so each is
a straight-line scan. -/

/-- `^([0-9]+)\.\s+([A-Z].*)` — returns (`matches[1]`, `matches[2]`). -/
def categoryMatch (text : String) : Option (String × String) :=
  let cs := text.data
  let d := cs.takeWhile Char.isDigit
  if d.isEmpty then none
  else
    match cs.drop d.length with
    | '.' :: rest =>
      let ws := rest.takeWhile re2Space
      if ws.isEmpty then none
      else
        match rest.drop ws.length with
        | c :: rest2 =>
          if c.isUpper then some (⟨d⟩, ⟨c :: rest2.takeWhile (· ≠ '\n')⟩)
          else none
        | [] => none
    | _ => none

/-- `^([0-9]+\.[0-9]+)\s+([A-Z].*)`. -/
def guidelineMatch (text : String) : Option (String × String) :=
  let cs := text.data
  let d1 := cs.takeWhile Char.isDigit
  if d1.isEmpty then none
  else
    match cs.drop d1.length with
    | '.' :: r1 =>
      let d2 := r1.takeWhile Char.isDigit
      if d2.isEmpty then none
      else
        let r2 := r1.drop d2.length
        let ws := r2.takeWhile re2Space
        if ws.isEmpty then none
        else
          match r2.drop ws.length with
          | c :: rest2 =>
            if c.isUpper then
              some (⟨d1 ++ '.' :: d2⟩, ⟨c :: rest2.takeWhile (· ≠ '\n')⟩)
            else none
          | [] => none
    | _ => none

/-- `^([0-9]+\.[0-9]+\.[0-9]+)\s+(.*)`. -/
def partMatch (text : String) : Option (String × String) :=
  let cs := text.data
  let d1 := cs.takeWhile Char.isDigit
  if d1.isEmpty then none
  else
    match cs.drop d1.length with
    | '.' :: r1 =>
      let d2 := r1.takeWhile Char.isDigit
      if d2.isEmpty then none
      else
        match (r1.drop d2.length) with
        | '.' :: r2 =>
          let d3 := r2.takeWhile Char.isDigit
          if d3.isEmpty then none
          else
            let r3 := r2.drop d3.length
            let ws := r3.takeWhile re2Space
            if ws.isEmpty then none
            else
              some (⟨d1 ++ '.' :: d2 ++ '.' :: d3⟩,
                    ⟨(r3.drop ws.length).takeWhile (· ≠ '\n')⟩)
        | _ => none
    | _ => none

/-! Metadata extraction patterns. -/

/-- `(?i)^title:\s*(.+)` (and, with another literal, `(?i)^author:\s*(.+)`). -/
def labeledLineMatch (label : String) (text : String) : Option String :=
  (stripPrefixCI label.data text.data).bind (wsGroupTail false)

/-- The capture group `([0-9]+\.[0-9]+(?:\.[0-9]+)?)` at the head of `cs`. -/
def versionNumGroup (cs : List Char) : Option String :=
  let d1 := cs.takeWhile Char.isDigit
  if d1.isEmpty then none
  else
    match cs.drop d1.length with
    | '.' :: r2 =>
      let d2 := r2.takeWhile Char.isDigit
      if d2.isEmpty then none
      else
        let r3 := r2.drop d2.length
        let opt :=
          match r3 with
          | '.' :: r4 =>
            let d3 := r4.takeWhile Char.isDigit
            if d3.isEmpty then [] else '.' :: d3
          | _ => []
        some ⟨d1 ++ '.' :: d2 ++ opt⟩
    | _ => none

/-- `(?i)version\s*:?\s*([0-9]+\.[0-9]+(?:\.[0-9]+)?)` (unanchored). -/
def versionMatch1 (text : String) : Option String :=
  scanFor
    (fun s =>
      (stripPrefixCI "version".data s).bind fun r =>
        let r1 := r.dropWhile re2Space
        let r2 := match r1 with
                  | ':' :: t => t.dropWhile re2Space
                  | _ => r1
        versionNumGroup r2)
    text.data

/-- `(?i)v\.?\s*([0-9]+\.[0-9]+(?:\.[0-9]+)?)` (unanchored). -/
def versionMatch2 (text : String) : Option String :=
  scanFor
    (fun s =>
      (stripPrefixCI "v".data s).bind fun r =>
        let r1 := match r with
                  | '.' :: t => t
                  | _ => r
        versionNumGroup (r1.dropWhile re2Space))
    text.data

/-- The alternation `(\s+Version|\s+v\.|$)` of the second title pattern,
checked at `cs` (the tail after the matched keyword). -/
def titleTailMatch (cs : List Char) : Bool :=
  let ws := cs.takeWhile re2Space
  let rest := cs.drop ws.length
  (!ws.isEmpty &&
    ((stripPrefixCI "version".data rest).isSome ||
     (stripPrefixCI "v.".data rest).isSome)) ||
  cs.isEmpty

/-- The `(Standard|Framework|Guidelines?|Requirements?)(\s+Version|\s+v\.|$)`
suffix of the second title pattern, checked at `cs`. -/
def titleKeywordTail (cs : List Char) : Bool :=
  ["standard", "framework", "guidelines", "guideline",
   "requirements", "requirement"].any fun w =>
    match stripPrefixCI w.data cs with
    | some rest => titleTailMatch rest
    | none => false

/-- `(?i)^(.+?)(Standard|Framework|Guidelines?|Requirements?)(\s+Version|\s+v\.|$)`,
returning `matches[1]`.  The lazy `(.+?)` tries the shortest non-empty
newline-free prefix first. -/
def titlePattern2Aux (accRev : List Char) : List Char → Option String
  | [] => none
  | c :: rest =>
    if c = '\n' then none
    else if titleKeywordTail rest then some ⟨(c :: accRev).reverse⟩
    else titlePattern2Aux (c :: accRev) rest

def titlePattern2Match (text : String) : Option String :=
  titlePattern2Aux [] text.data

/-- `(?i)^by\s+(.+)`. -/
def byAuthorMatch (text : String) : Option String :=
  (stripPrefixCI "by".data text.data).bind (wsGroupTail true)

/-- `(?i)(?:published|publication\s+date):\s*(.+)` (unanchored). -/
def publicationMatch1 (text : String) : Option String :=
  scanFor
    (fun s =>
      let afterKeyword :=
        match stripPrefixCI "published".data s with
        | some r => some r
        | none =>
          (stripPrefixCI "publication".data s).bind fun r =>
            let ws := r.takeWhile re2Space
            if ws.isEmpty then none
            else stripPrefixCI "date".data (r.drop ws.length)
      afterKeyword.bind fun r =>
        match r with
        | ':' :: t => wsGroupTail false t
        | _ => none)
    text.data

def monthNames : List String :=
  ["January", "February", "March", "April", "May", "June", "July",
   "August", "September", "October", "November", "December"]

/-- The `\s+\d{1,2},?\s+\d{4}` suffix of the month/date pattern. -/
def monthDateTail (cs : List Char) : Bool :=
  let ws1 := cs.takeWhile re2Space
  if ws1.isEmpty then false
  else
    let r1 := cs.drop ws1.length
    let checkDay : Nat → Bool := fun k =>
      (r1.take k).length = k && (r1.take k).all Char.isDigit &&
        (let r2 := r1.drop k
         let r3 := match r2 with
                   | ',' :: t => t
                   | _ => r2
         let ws2 := r3.takeWhile re2Space
         !ws2.isEmpty &&
           (let r4 := (r3.drop ws2.length).take 4
            r4.length = 4 && r4.all Char.isDigit))
    checkDay 2 || checkDay 1

/-- `(?i)(January|…|December)\s+\d{1,2},?\s+\d{4}` (unanchored), returning
the matched month capture group in its original casing. -/
def publicationMatch2 (text : String) : Option String :=
  scanFor
    (fun s =>
      monthNames.firstM fun m =>
        match stripPrefixCI m.data s with
        | some rest => if monthDateTail rest then some ⟨s.take m.length⟩ else none
        | none => none)
    text.data

/-! ### Metadata extraction (`GenericSegmenter.extractMetadata`) -/

/-- The title step of the metadata scan for one block: ordered candidate
patterns, then (if the patterns produced nothing) the first level-1
heading. -/
def updateTitle (meta : DocumentMetadata) (block : Block) : String :=
  if meta.Title = "" then
    let fromPatterns :=
      match labeledLineMatch "title:" block.Text with
      | some g => trimGo g
      | none =>
        match titlePattern2Match block.Text with
        | some g => trimGo g
        | none => ""
    if fromPatterns = "" && block.Typ = BlockType.heading &&
        block.Level = 1 then
      block.Text
    else fromPatterns
  else meta.Title

def updateVersion (meta : DocumentMetadata) (block : Block) : String :=
  if meta.Version = "" then
    match versionMatch1 block.Text with
    | some v => v
    | none =>
      match versionMatch2 block.Text with
      | some v => v
      | none => ""
  else meta.Version

def updateAuthor (meta : DocumentMetadata) (block : Block) : String :=
  if meta.Author = "" then
    match labeledLineMatch "author:" block.Text with
    | some g => trimGo g
    | none =>
      match byAuthorMatch block.Text with
      | some g => trimGo g
      | none => ""
  else meta.Author

def updatePublicationDate (meta : DocumentMetadata) (block : Block) : String :=
  if meta.PublicationDate = "" then
    match publicationMatch1 block.Text with
    | some g => trimGo g
    | none =>
      match publicationMatch2 block.Text with
      | some g => trimGo g
      | none => ""
  else meta.PublicationDate

/-- One step of the metadata scan, mirroring the loop body of
`extractMetadata`: the four fields are updated sequentially in Go but no
step reads a field another step writes, so the body is this simultaneous
update (a field that fails to match keeps its previous value, which in the
still-empty branch is the same as the empty string the helper returns). -/
def updateMeta (meta : DocumentMetadata) (block : Block) : DocumentMetadata :=
  { meta with
      Title := updateTitle meta block,
      Version := updateVersion meta block,
      Author := updateAuthor meta block,
      PublicationDate := updatePublicationDate meta block }

/-- `GenericSegmenter.extractMetadata`: scan the blocks of the first five
pages, then substitute the sentinel defaults for still-empty required
fields. -/
def extractMetadata (doc : ParsedDocument) : DocumentMetadata :=
  let init : DocumentMetadata :=
    { ID := doc.Metadata.DocumentID, Title := "", Description := "",
      Author := "", Version := "", PublicationDate := "", DocumentType := "",
      Jurisdictions := [], IndustrySectors := [] }
  let scanned :=
    ((doc.Pages.take 5).flatMap Page.Blocks).foldl updateMeta init
  let scanned :=
    if scanned.Title = "" then { scanned with Title := "Untitled Document" }
    else scanned
  let scanned :=
    if scanned.Author = "" then { scanned with Author := "Unknown" }
    else scanned
  if scanned.Description = "" then
    { scanned with Description := "Automatically extracted from PDF" }
  else scanned

/-! ### Front matter (`GenericSegmenter.extractFrontMatter`) -/

def frontMatterAux (acc : String) : List Block → String
  | [] => acc
  | b :: bs =>
    if (categoryMatch b.Text).isSome then acc
    else if b.Typ = BlockType.heading && b.Level ≤ 1 then frontMatterAux acc bs
    else if b.Typ = BlockType.paragraph then
      frontMatterAux (if acc ≠ "" then acc ++ "\n\n" ++ b.Text else acc ++ b.Text) bs
    else frontMatterAux acc bs

def extractFrontMatter (doc : ParsedDocument) : String :=
  trimGo (frontMatterAux "" (doc.Pages.flatMap Page.Blocks))

/-! ### Guideline finalization (`GenericSegmenter.finalizeGuideline`) -/

def objectiveKeywords : List String := ["objective", "purpose", "goal", "intent"]

def recommendationKeywords : List String :=
  ["recommendation", "guidance", "implementation", "should", "must"]

/-- `(?i)<keyword>:\s*([^\n]+)` (unanchored), returning `matches[1]`. -/
def objectivePatternMatch (keyword : String) (text : String) : Option String :=
  scanFor
    (fun s =>
      (stripPrefixCI keyword.data s).bind fun r =>
        match r with
        | ':' :: t => wsGroupTail false t
        | _ => none)
    text.data

/-- First objective keyword whose pattern matches, with its trimmed group. -/
def firstObjective (text : String) : Option String :=
  objectiveKeywords.firstM fun kw =>
    (objectivePatternMatch kw text).map trimGo

/-- Lines of `text` (trimmed) that contain a recommendation keyword. -/
def recommendationLines (text : String) : List String :=
  (splitCh '\n' text).foldl
    (fun acc line =>
      let line := trimGo line
      if recommendationKeywords.any
          (fun kw => containsGo (toLowerGo line) (toLowerGo kw)) &&
          line ≠ "" then
        acc ++ [line]
      else acc)
    []

/-- `GenericSegmenter.finalizeGuideline`. -/
def finalizeGuideline (g : SegmentGuideline) (text : String) : SegmentGuideline :=
  let obj :=
    match firstObjective text with
    | some o => o
    | none => g.Objective
  let obj :=
    if obj = "" then trimGo (((splitCh '.' text).headD "")) else obj
  { g with Objective := obj,
           Recommendations := g.Recommendations ++ recommendationLines text }

/-! ### Category extraction (`GenericSegmenter.extractCategories`) -/

structure SegState where
  cats : List SegmentCategory
  cur : Option SegmentCategory
  curG : Option SegmentGuideline
  acc : String
  deriving DecidableEq, Repr

/-- Append `text` to the accumulator the way the `strings.Builder` is used
(newline-joined, no separator while empty). -/
def accAppend (acc text : String) : String :=
  if acc ≠ "" then acc ++ "\n" ++ text else acc ++ text

/-- Flush the accumulator into the open guideline if both are present
(the leading `if currentGuideline != nil && currentText.Len() > 0` block of
the category and guideline branches). -/
def flushAcc (s : SegState) : SegState :=
  match s.curG with
  | some g =>
    if s.acc ≠ "" then
      { s with curG := some (finalizeGuideline g s.acc), acc := "" }
    else s
  | none => s

/-- One block of the `extractCategories` loop body. -/
def processBlock (s : SegState) (b : Block) : SegState :=
  match categoryMatch b.Text with
  | some (mid, mtitle) =>
    let s := flushAcc s
    let cats :=
      match s.cur with
      | some c =>
        let c :=
          match s.curG with
          | some g => { c with Guidelines := c.Guidelines ++ [g] }
          | none => c
        s.cats ++ [c]
      | none => s.cats
    { cats := cats,
      cur := some { ID := mid, Title := trimGo mtitle, Description := "",
                    Guidelines := [] },
      curG := none, acc := s.acc }
  | none =>
    match guidelineMatch b.Text with
    | some (mid, mtitle) =>
      let s := flushAcc s
      let cur :=
        match s.cur, s.curG with
        | some c, some g => some { c with Guidelines := c.Guidelines ++ [g] }
        | some c, none => some c
        | none, _ => none
      { cats := s.cats, cur := cur,
        curG := some { ID := mid, Title := trimGo mtitle, Objective := "",
                       Recommendations := [], Parts := [] },
        acc := s.acc }
    | none =>
      match partMatch b.Text with
      | some (mid, mtext) =>
        match s.curG with
        | some g =>
          { s with curG := some { g with Parts :=
              g.Parts ++ [{ ID := mid, Title := "", Text := trimGo mtext,
                            Recommendations := [] }] } }
        | none => s
      | none =>
        if b.Typ = BlockType.paragraph || b.Typ = BlockType.list then
          { s with acc := accAppend s.acc b.Text }
        else s

/-- The trailing flush after the loop over all blocks. -/
def finishSeg (s : SegState) : List SegmentCategory :=
  let cur :=
    match s.curG with
    | some g =>
      let g := if s.acc ≠ "" then finalizeGuideline g s.acc else g
      match s.cur with
      | some c => some { c with Guidelines := c.Guidelines ++ [g] }
      | none => s.cur
    | none => s.cur
  match cur with
  | some c => s.cats ++ [c]
  | none => s.cats

def initSegState : SegState := { cats := [], cur := none, curG := none, acc := "" }

/-- Run the category-extraction state machine from a given state over a
block list. -/
def runSegFrom (s : SegState) (blocks : List Block) : List SegmentCategory :=
  finishSeg (blocks.foldl processBlock s)

/-- `GenericSegmenter.extractCategories` (the nested page/block loops are
the fold over the page-order-preserving flattened block stream). -/
def extractCategories (doc : ParsedDocument) : List SegmentCategory :=
  runSegFrom initSegState (doc.Pages.flatMap Page.Blocks)

/-- `GenericSegmenter.Segment`; `now` models `time.Now()`. -/
def Segment (now : Int) (doc : ParsedDocument) : SegmentedDocument :=
  { Metadata :=
      { SourceVersion := doc.Metadata.Version, Segmenter := "generic-v1.0",
        SegmentedAt := now, Version := 0,
        DocumentID := doc.Metadata.DocumentID },
    DocumentMetadata := extractMetadata doc,
    FrontMatter := extractFrontMatter doc,
    Categories := extractCategories doc,
    UnmappedContent := [] }

/-! ### Layer-1 schema types (`github.com/ossf/gemara/layer1`)

The `layer1` struct declarations themselves are not among the provided
sources; the shapes below are exactly the fields the provided validator,
converter and coverage analyzer read and write.  `DocumentType` is a string
type in Go and is modelled as `String`; mapping strengths are modelled as
`Int`. -/

namespace L1

structure Applicability where
  IndustrySectors : List String
  Jurisdictions : List String
  deriving DecidableEq, Repr

structure MappingReference where
  Id : String
  Title : String
  Version : String
  deriving DecidableEq, Repr

structure Metadata where
  Id : String
  Title : String
  Description : String
  Author : String
  Version : String
  PublicationDate : String
  DocumentType : String
  Applicability : Option Applicability := none
  MappingReferences : List MappingReference := []
  deriving DecidableEq, Repr

structure MappingEntry where
  ReferenceId : String
  Strength : Int
  deriving DecidableEq, Repr

structure Mapping where
  ReferenceId : String
  Entries : List MappingEntry
  deriving DecidableEq, Repr

structure TitledItem where
  Title : String
  Description : String
  deriving DecidableEq, Repr

structure Rationale where
  Risks : List TitledItem
  Outcomes : List TitledItem
  deriving DecidableEq, Repr

structure Part where
  Id : String
  Title : String := ""
  Text : String
  Recommendations : List String := []
  deriving DecidableEq, Repr

structure Guideline where
  Id : String
  Title : String
  Objective : String := ""
  Recommendations : List String := []
  GuidelineParts : List Part := []
  Rationale : Option Rationale := none
  GuidelineMappings : List Mapping := []
  PrincipleMappings : List Mapping := []
  deriving DecidableEq, Repr

structure Category where
  Id : String
  Title : String
  Description : String
  Guidelines : List Guideline := []
  deriving DecidableEq, Repr

structure GuidanceDocument where
  Metadata : Metadata
  FrontMatter : String := ""
  Categories : List Category := []
  ImportedGuidelines : List Mapping := []
  ImportedPrinciples : List Mapping := []
  deriving DecidableEq, Repr

end L1

/-! ### Converter (`layer1/pipeline/converter/converter.go`) -/

def convertPart (part : SegmentPart) : L1.Part :=
  { Id := part.ID, Title := part.Title, Text := part.Text,
    Recommendations := part.Recommendations }

def convertGuideline (guide : SegmentGuideline) : L1.Guideline :=
  { Id := guide.ID, Title := guide.Title, Objective := guide.Objective,
    Recommendations := guide.Recommendations,
    GuidelineParts := guide.Parts.map convertPart }

def convertCategory (cat : SegmentCategory) : L1.Category :=
  { Id := cat.ID, Title := cat.Title, Description := cat.Description,
    Guidelines := cat.Guidelines.map convertGuideline }

def convertMetadata (meta : DocumentMetadata) : L1.Metadata :=
  let l1Meta : L1.Metadata :=
    { Id := meta.ID, Title := meta.Title, Description := meta.Description,
      Author := meta.Author, Version := meta.Version,
      PublicationDate := meta.PublicationDate, DocumentType := "" }
  let l1Meta :=
    if meta.DocumentType ≠ "" then
      { l1Meta with DocumentType := meta.DocumentType }
    else l1Meta
  let app : L1.Applicability :=
    ⟨meta.IndustrySectors, meta.Jurisdictions⟩
  if meta.IndustrySectors ≠ [] || meta.Jurisdictions ≠ [] then
    { l1Meta with Applicability := some app }
  else l1Meta

/-- `DefaultConverter.Convert`.  The Go method only fails on a `nil` input
pointer, which has no counterpart for a Lean value, so the success branch is
modelled. -/
def Convert (doc : SegmentedDocument) : L1.GuidanceDocument :=
  { Metadata := convertMetadata doc.DocumentMetadata,
    FrontMatter := doc.FrontMatter,
    Categories := doc.Categories.map convertCategory }

/-! ### Validator (`layer1/pipeline/validator/validator.go`)

Each `validateX` helper is modelled as the list of errors it appends, in
order; `ValidationResult.Valid` starts `true` and is set to `false` by
every `AddError`, so it equals "no errors were produced". -/

inductive VValue
  | none
  | str (s : String)
  | num (n : Int)
  deriving DecidableEq, Repr

structure ValidationError where
  Path : String
  Message : String
  Value : VValue
  deriving DecidableEq, Repr

structure ValidationResult where
  Valid : Bool
  Errors : List ValidationError
  deriving DecidableEq, Repr

/-- `ValidDocumentTypes` (membership in the Go map). -/
def isValidDocumentType (t : String) : Bool :=
  t = "Standard" || t = "Regulation" || t = "Best Practice" || t = "Framework"

def reqMsg : String := "required field is empty"

def validateMappingReference (ref : L1.MappingReference) (path : String) :
    List ValidationError :=
  (if ref.Id = "" then [⟨path ++ ".id", reqMsg, .none⟩] else []) ++
  (if ref.Title = "" then [⟨path ++ ".title", reqMsg, .none⟩] else []) ++
  (if ref.Version = "" then [⟨path ++ ".version", reqMsg, .none⟩] else [])

def validateMappingEntries (path : String) (i : Nat) :
    List L1.MappingEntry → List ValidationError
  | [] => []
  | e :: es =>
    let entryPath := path ++ ".entries[" ++ toString i ++ "]"
    (if e.ReferenceId = "" then [⟨entryPath ++ ".reference-id", reqMsg, .none⟩]
     else []) ++
    (if e.Strength < 0 || e.Strength > 100 then
      [⟨entryPath ++ ".strength", "should be between 0 and 100",
        .num e.Strength⟩]
     else []) ++
    validateMappingEntries path (i + 1) es

def validateMapping (m : L1.Mapping) (path : String) : List ValidationError :=
  (if m.ReferenceId = "" then [⟨path ++ ".reference-id", reqMsg, .none⟩]
   else []) ++
  validateMappingEntries path 0 m.Entries

def validateMappings (base : String) (i : Nat) :
    List L1.Mapping → List ValidationError
  | [] => []
  | m :: ms =>
    validateMapping m (base ++ "[" ++ toString i ++ "]") ++
    validateMappings base (i + 1) ms

def validateTitledItems (base : String) (i : Nat) :
    List L1.TitledItem → List ValidationError
  | [] => []
  | t :: ts =>
    let p := base ++ "[" ++ toString i ++ "]"
    (if t.Title = "" then [⟨p ++ ".title", reqMsg, .none⟩] else []) ++
    (if t.Description = "" then [⟨p ++ ".description", reqMsg, .none⟩]
     else []) ++
    validateTitledItems base (i + 1) ts

def validateRationale (rat : L1.Rationale) (path : String) :
    List ValidationError :=
  validateTitledItems (path ++ ".risks") 0 rat.Risks ++
  validateTitledItems (path ++ ".outcomes") 0 rat.Outcomes

def validatePart (part : L1.Part) (path : String) : List ValidationError :=
  (if part.Id = "" then [⟨path ++ ".id", reqMsg, .none⟩] else []) ++
  (if part.Text = "" then [⟨path ++ ".text", reqMsg, .none⟩] else [])

def validateParts (base : String) (seen : List String) (i : Nat) :
    List L1.Part → List ValidationError
  | [] => []
  | p :: ps =>
    let partPath := base ++ ".guideline-parts[" ++ toString i ++ "]"
    let dup :=
      if p.Id ≠ "" && seen.contains p.Id then
        [⟨partPath ++ ".id", "duplicate part ID within guideline", .str p.Id⟩]
      else []
    let seen := if p.Id ≠ "" then p.Id :: seen else seen
    dup ++ validatePart p partPath ++ validateParts base seen (i + 1) ps

def validateGuideline (guide : L1.Guideline) (path : String) :
    List ValidationError :=
  (if guide.Id = "" then [⟨path ++ ".id", reqMsg, .none⟩] else []) ++
  (if guide.Title = "" then [⟨path ++ ".title", reqMsg, .none⟩] else []) ++
  (match guide.Rationale with
   | some rat => validateRationale rat (path ++ ".rationale")
   | none => []) ++
  validateParts path [] 0 guide.GuidelineParts ++
  validateMappings (path ++ ".guideline-mappings") 0 guide.GuidelineMappings ++
  validateMappings (path ++ ".principle-mappings") 0 guide.PrincipleMappings

def validateGuidelines (base : String) (seen : List String) (i : Nat) :
    List L1.Guideline → List ValidationError
  | [] => []
  | g :: gs =>
    let guidePath := base ++ ".guidelines[" ++ toString i ++ "]"
    let dup :=
      if g.Id ≠ "" && seen.contains g.Id then
        [⟨guidePath ++ ".id", "duplicate guideline ID within category",
          .str g.Id⟩]
      else []
    let seen := if g.Id ≠ "" then g.Id :: seen else seen
    dup ++ validateGuideline g guidePath ++
      validateGuidelines base seen (i + 1) gs

def validateCategory (cat : L1.Category) (path : String) :
    List ValidationError :=
  (if cat.Id = "" then [⟨path ++ ".id", reqMsg, .none⟩] else []) ++
  (if cat.Title = "" then [⟨path ++ ".title", reqMsg, .none⟩] else []) ++
  (if cat.Description = "" then [⟨path ++ ".description", reqMsg, .none⟩]
   else []) ++
  validateGuidelines path [] 0 cat.Guidelines

def validateCategoriesAux (seen : List String) (i : Nat) :
    List L1.Category → List ValidationError
  | [] => []
  | c :: cs =>
    let path := "categories[" ++ toString i ++ "]"
    let dup :=
      if c.Id ≠ "" && seen.contains c.Id then
        [⟨path ++ ".id", "duplicate category ID", .str c.Id⟩]
      else []
    let seen := if c.Id ≠ "" then c.Id :: seen else seen
    dup ++ validateCategory c path ++ validateCategoriesAux seen (i + 1) cs

def validateCategories (categories : List L1.Category) : List ValidationError :=
  if categories.isEmpty then
    [⟨"categories", "document must have at least one category", .none⟩]
  else validateCategoriesAux [] 0 categories

/-- `validateApplicability` performs no checks. -/
def validateApplicability (_ : L1.Applicability) : List ValidationError := []

def validateMappingReferences (i : Nat) :
    List L1.MappingReference → List ValidationError
  | [] => []
  | r :: rs =>
    validateMappingReference r
      ("metadata.mapping-references[" ++ toString i ++ "]") ++
    validateMappingReferences (i + 1) rs

def validateMetadata (strict : Bool) (meta : L1.Metadata) :
    List ValidationError :=
  (if meta.Id = "" then [⟨"metadata.id", reqMsg, .none⟩] else []) ++
  (if meta.Title = "" then [⟨"metadata.title", reqMsg, .none⟩] else []) ++
  (if meta.Description = "" then [⟨"metadata.description", reqMsg, .none⟩]
   else []) ++
  (if meta.Author = "" then [⟨"metadata.author", reqMsg, .none⟩] else []) ++
  (if meta.DocumentType ≠ "" then
    (if !isValidDocumentType meta.DocumentType then
      [⟨"metadata.document-type",
        "must be one of: Standard, Regulation, Best Practice, Framework",
        .str meta.DocumentType⟩]
     else [])
   else if strict then
    [⟨"metadata.document-type", "required field is empty (strict mode)",
      .none⟩]
   else []) ++
  (match meta.Applicability with
   | some app => validateApplicability app
   | none => []) ++
  validateMappingReferences 0 meta.MappingReferences

/-- `Validator.Validate` with strictness `strict`
(`NewValidator()` is `strict = false`, `WithStrictMode(true)` sets it). -/
def Validate (strict : Bool) (doc : L1.GuidanceDocument) : ValidationResult :=
  let errs :=
    validateMetadata strict doc.Metadata ++
    validateCategories doc.Categories ++
    validateMappings "imported-guidelines" 0 doc.ImportedGuidelines ++
    validateMappings "imported-principles" 0 doc.ImportedPrinciples
  { Valid := errs.isEmpty, Errors := errs }

/-! ### Coverage analyzer (`layer1/pipeline/validator/coverage.go`)

`float64` arithmetic is modelled with exact rationals; the map of quality
indicators is modelled as an association list in insertion order.  The Go
functions take pointers and return zero-valued metrics on `nil`, modelled
with `Option` inputs. -/

structure CoverageMetrics where
  BlockCoverage : ℚ := 0
  CharacterCoverage : ℚ := 0
  RequiredFieldsCovered : Nat := 0
  RequiredFieldsTotal : Nat := 0
  OptionalFieldsCovered : Nat := 0
  OptionalFieldsTotal : Nat := 0
  OverallScore : ℚ := 0
  QualityIndicators : List (String × String) := []
  deriving DecidableEq, Repr

def boolCount (b : Bool) : Nat := if b then 1 else 0

/-- Total number of blocks of a parsed document (the `totalBlocks` count of
`calculateCoverageMetrics`). -/
def totalBlocksOf (parsed : ParsedDocument) : Nat :=
  (parsed.Pages.map (fun p => p.Blocks.length)).sum

/-- `CoverageAnalyzer.calculateCoverageMetrics`. -/
def calculateCoverageMetrics (parsed : Option ParsedDocument)
    (segmented : Option SegmentedDocument) : CoverageMetrics :=
  match parsed, segmented with
  | some parsed, some segmented =>
    let totalBlocks := totalBlocksOf parsed
    let unmappedBlocks := segmented.UnmappedContent.length
    let mappedBlocks : Int := (totalBlocks : Int) - (unmappedBlocks : Int)
    let blockCoverage : ℚ :=
      if totalBlocks > 0 then
        (mappedBlocks : ℚ) / (totalBlocks : ℚ) * 100
      else 0
    let meta := segmented.DocumentMetadata
    let requiredCovered :=
      boolCount (meta.ID ≠ "") + boolCount (meta.Title ≠ "") +
      boolCount (meta.Description ≠ "") + boolCount (meta.Author ≠ "")
    let optionalCovered :=
      boolCount (meta.Version ≠ "") + boolCount (meta.PublicationDate ≠ "") +
      boolCount (meta.DocumentType ≠ "") + boolCount (meta.Jurisdictions ≠ [])
    let requiredTotal : Nat := 4
    let optionalTotal : Nat := 4
    let requiredScore : ℚ :=
      if requiredTotal > 0 then
        (requiredCovered : ℚ) / (requiredTotal : ℚ) * 60
      else 0
    let optionalScore : ℚ :=
      if optionalTotal > 0 then
        (optionalCovered : ℚ) / (optionalTotal : ℚ) * 20
      else 0
    let blockScore : ℚ := blockCoverage * (2 / 10)
    let overall := requiredScore + optionalScore + blockScore
    let qi : List (String × String) :=
      [("overall",
        if overall ≥ 90 then "excellent"
        else if overall ≥ 70 then "good"
        else if overall ≥ 50 then "fair"
        else "needs_improvement"),
       ("content_capture",
        if blockCoverage ≥ 90 then "comprehensive"
        else if blockCoverage ≥ 70 then "substantial"
        else "partial")]
    { BlockCoverage := blockCoverage,
      RequiredFieldsCovered := requiredCovered, RequiredFieldsTotal := 4,
      OptionalFieldsCovered := optionalCovered, OptionalFieldsTotal := 4,
      OverallScore := overall, QualityIndicators := qi }
  | _, _ => {}

/-- `CoverageAnalyzer.calculateLayer1Coverage`. -/
def calculateLayer1Coverage (doc : Option L1.GuidanceDocument) :
    CoverageMetrics :=
  match doc with
  | some doc =>
    let requiredCovered :=
      boolCount (doc.Metadata.Id ≠ "") + boolCount (doc.Metadata.Title ≠ "") +
      boolCount (doc.Metadata.Description ≠ "") +
      boolCount (doc.Metadata.Author ≠ "")
    let optionalCovered :=
      boolCount (doc.Metadata.DocumentType ≠ "") +
      boolCount (doc.Metadata.Version ≠ "") +
      boolCount (doc.Metadata.PublicationDate ≠ "") +
      boolCount (doc.FrontMatter ≠ "") +
      boolCount doc.Metadata.Applicability.isSome
    let requiredScore : ℚ := (requiredCovered : ℚ) / 4 * 70
    let optionalScore : ℚ := (optionalCovered : ℚ) / 5 * 30
    let overall := requiredScore + optionalScore
    let depth : String :=
      if doc.Categories.isEmpty then "empty"
      else
        let hasGuidelines := doc.Categories.any fun c => !c.Guidelines.isEmpty
        let hasParts := doc.Categories.any fun c =>
          c.Guidelines.any fun g => !g.GuidelineParts.isEmpty
        if hasParts then "detailed"
        else if hasGuidelines then "moderate"
        else "shallow"
    { RequiredFieldsCovered := requiredCovered, RequiredFieldsTotal := 4,
      OptionalFieldsCovered := optionalCovered, OptionalFieldsTotal := 5,
      OverallScore := overall,
      QualityIndicators :=
        [("completeness",
          if overall ≥ 90 then "excellent"
          else if overall ≥ 70 then "good"
          else if overall ≥ 50 then "fair"
          else "incomplete"),
         ("content_depth", depth)] }
  | none => {}

/-! ### Storage (`layer1/pipeline/storage/storage.go`)

The intermediate store is modelled as the list of version directories
`intermediate/{id}/v{n}` in creation order, each holding the artifact files
and metadata sidecars the code writes into it.  A generic `metadata.json`
is never written by this code, so reading it always fails.  I/O succeeds in
this model; JSON round-trips are the identity; `time.Now()` is the `now`
argument; the serialized byte size recorded in the sidecar is not modelled
and is stored as `0`. -/

structure StorageMetadata where
  DocumentID : String
  Version : Nat
  Typ : String
  StoredAt : Int
  Size : Nat := 0
  Checksum : String := ""
  Description : String := ""
  deriving DecidableEq, Repr

structure DirRec where
  docID : String
  ver : Nat
  parsed : Option ParsedDocument := none
  segmented : Option SegmentedDocument := none
  metaParsed : Option StorageMetadata := none
  metaSegmented : Option StorageMetadata := none
  deriving DecidableEq, Repr

structure Store where
  dirs : List DirRec
  deriving DecidableEq, Repr

def Store.empty : Store := ⟨[]⟩

/-- Read the `metadata-{docType}.json` sidecar of one version directory,
falling back to the (never-written) generic `metadata.json`. -/
def readDirMeta (d : DirRec) (docType : String) : Option StorageMetadata :=
  if docType = "parsed" then d.metaParsed
  else if docType = "segmented" then d.metaSegmented
  else none

def insertVersionDesc (m : StorageMetadata) :
    List StorageMetadata → List StorageMetadata
  | [] => [m]
  | x :: xs =>
    if m.Version > x.Version then m :: x :: xs
    else x :: insertVersionDesc m xs

/-- Sort by version descending (`sort.Slice` with `Version >`). -/
def sortVersionDesc (l : List StorageMetadata) : List StorageMetadata :=
  l.foldr insertVersionDesc []

/-- `Storage.ListVersions`. -/
def ListVersions (st : Store) (documentID docType : String) :
    List StorageMetadata :=
  let metas :=
    ((st.dirs.filter (fun d => d.docID = documentID)).filterMap
        (fun d =>
          if docType ≠ "" then readDirMeta d docType
          else none)).filter
      (fun m => docType = "" || m.Typ = docType)
  sortVersionDesc metas

/-- `Storage.getLatestVersion`. -/
def getLatestVersion (st : Store) (documentID docType : String) : Nat :=
  match ListVersions st documentID docType with
  | [] => 0
  | m :: _ => m.Version

/-- `Storage.getNextVersion`. -/
def getNextVersion (st : Store) (documentID docType : String) : Nat :=
  getLatestVersion st documentID docType + 1

/-- `os.MkdirAll` on `intermediate/{id}/v{n}` followed by the file writes:
update the existing directory record or create it. -/
def upsertDirList (documentID : String) (v : Nat) (f : DirRec → DirRec) :
    List DirRec → List DirRec
  | [] => [f { docID := documentID, ver := v }]
  | d :: ds =>
    if d.docID = documentID ∧ d.ver = v then f d :: ds
    else d :: upsertDirList documentID v f ds

def upsertDir (st : Store) (documentID : String) (v : Nat)
    (f : DirRec → DirRec) : Store :=
  ⟨upsertDirList documentID v f st.dirs⟩

/-- `Storage.SaveParsed`; returns the updated store together with the
in-memory document after its version-field mutation. -/
def SaveParsed (now : Int) (st : Store) (doc : ParsedDocument) :
    Store × ParsedDocument :=
  let id := doc.Metadata.DocumentID
  let version := getNextVersion st id "parsed"
  let doc := { doc with Metadata := { doc.Metadata with Version := version } }
  let meta : StorageMetadata :=
    { DocumentID := id, Version := version, Typ := "parsed", StoredAt := now }
  let st :=
    upsertDir st id version fun d =>
      { d with parsed := some doc, metaParsed := some meta }
  (st, doc)

/-- `Storage.SaveSegmented`. -/
def SaveSegmented (now : Int) (st : Store) (doc : SegmentedDocument) :
    Store × SegmentedDocument :=
  let id := doc.Metadata.DocumentID
  let version := getNextVersion st id "segmented"
  let doc := { doc with Metadata := { doc.Metadata with Version := version } }
  let meta : StorageMetadata :=
    { DocumentID := id, Version := version, Typ := "segmented",
      StoredAt := now }
  let st :=
    upsertDir st id version fun d =>
      { d with segmented := some doc, metaSegmented := some meta }
  (st, doc)

/-- `Storage.LoadParsed` (`version = 0` means latest). -/
def LoadParsed (st : Store) (documentID : String) (version : Nat) :
    Except String ParsedDocument :=
  let v := if version = 0 then getLatestVersion st documentID "parsed"
           else version
  match (st.dirs.find? (fun d => d.docID = documentID ∧ d.ver = v)).bind
      DirRec.parsed with
  | some doc => .ok doc
  | none => .error "failed to read parsed document"

/-- Save the documents in order, returning the final store and the list of
assigned versions. -/
def saveParsedAll (now : Int) (st : Store) :
    List ParsedDocument → Store × List Nat
  | [] => (st, [])
  | d :: ds =>
    let (st, d') := SaveParsed now st d
    let (stFinal, vs) := saveParsedAll now st ds
    (stFinal, d'.Metadata.Version :: vs)

/-! #### Final artifacts (`SaveFinal` / `LoadFinal`)

`LoadFinal` reads `final/{id}{ext}` for the extensions it probes; the
filesystem of final artifacts is modelled as a function from file name to a
read outcome, and unmarshalling as the `Except` the file content carries. -/

inductive FileRes
  | found (content : Except String L1.GuidanceDocument)
  | notExist
  | ioError (msg : String)

inductive LoadFinalError
  /-- The error text reads "final document not found: " plus the id. -/
  | notFound (documentID : String)
  /-- The error text reads "failed to read final document: " and wraps the
  underlying I/O error. -/
  | readFailure (err : String)
  /-- The error text reads "failed to unmarshal JSON/YAML: " and wraps the
  underlying decode error. -/
  | unmarshalFailure (err : String)
  deriving DecidableEq, Repr

def loadFinalExt (fs : String → FileRes) (documentID : String) (ext : String)
    (onMissing : Except LoadFinalError L1.GuidanceDocument) :
    Except LoadFinalError L1.GuidanceDocument :=
  match fs (documentID ++ ext) with
  | .found (.ok doc) => .ok doc
  | .found (.error e) => .error (.unmarshalFailure e)
  | .ioError e => .error (.readFailure e)
  | .notExist => onMissing

/-- `Storage.LoadFinal`: try `.yaml`, `.yml`, `.json` in that order. -/
def LoadFinal (fs : String → FileRes) (documentID : String) :
    Except LoadFinalError L1.GuidanceDocument :=
  loadFinalExt fs documentID ".yaml"
    (loadFinalExt fs documentID ".yml"
      (loadFinalExt fs documentID ".json"
        (.error (.notFound documentID))))

/-! ### Concrete documents used by the claim theorems and witnesses -/

/-- The block stream of the spec's segmentation example. -/
def segExampleDoc : ParsedDocument :=
  { Metadata :=
      { SourceFile := "example.pdf", Parser := "p", ParsedAt := 0,
        Version := 1, DocumentID := "doc-1" },
    Pages :=
      [{ PageNumber := 1,
         Blocks :=
           [{ Typ := .heading, Level := 1, Text := "1. Access Control" },
            { Typ := .paragraph, Level := 0,
              Text := "Implement strong access control." },
            { Typ := .heading, Level := 2, Text := "1.1 User Authentication" },
            { Typ := .paragraph, Level := 0, Text := "Ensure MFA." }] }] }

/-- A parsed document whose `DocumentID` is empty. -/
def noIdParsedDoc : ParsedDocument :=
  { Metadata :=
      { SourceFile := "x.pdf", Parser := "p", ParsedAt := 0, Version := 1,
        DocumentID := "" },
    Pages := [] }

/-! ### Theorems -/

/-- Claim C1 (counterexample).  On the spec's example block stream,
segmentation produces exactly one category with exactly one guideline, but
that guideline's `Objective` is "Implement strong access control" — the
paragraph that precedes the guideline's own opening marker — and not the
claimed "Ensure MFA", so the claim is false at this input. -/
theorem C1_segmentation_example_counterexample :
    ((Segment 0 segExampleDoc).Categories.map
        fun c => c.Guidelines.map SegmentGuideline.Objective)
      = [["Implement strong access control"]] ∧
    "Implement strong access control" ≠ "Ensure MFA" := by
  constructor
  · rfl
  · decide

/-- Claim C1 (amended).  On the spec's example block stream, segmentation
yields exactly one category (ID "1", title "Access Control") containing
exactly one guideline (ID "1.1", title "User Authentication") whose
`Objective` is "Implement strong access control": the accumulator is only
cleared when it is flushed into an already-open guideline, so text
accumulated before the first guideline opens leaks into that guideline's
objective. -/
theorem C1_segmentation_example_amended :
    (Segment 0 segExampleDoc).Categories =
      [{ ID := "1", Title := "Access Control", Description := "",
         Guidelines :=
           [{ ID := "1.1", Title := "User Authentication",
              Objective := "Implement strong access control",
              Recommendations := [], Parts := [] }] }] := by
  rfl

lemma updateMeta_ID (m : DocumentMetadata) (b : Block) :
    (updateMeta m b).ID = m.ID := rfl

lemma foldl_updateMeta_ID (bs : List Block) (m : DocumentMetadata) :
    (bs.foldl updateMeta m).ID = m.ID := by
  induction bs generalizing m with
  | nil => rfl
  | cons b bs ih => rw [List.foldl_cons, ih, updateMeta_ID]

/-- Claim C6 (counterexample).  The metadata `id` produced by
`GenericSegmenter.Segment` is the parsed document's `DocumentID` verbatim
and receives no sentinel default, so for a parsed document with an empty
`DocumentID` the required `id` field of the segmented metadata is empty. -/
theorem C6_metadata_defaults_counterexample :
    (Segment 0 noIdParsedDoc).DocumentMetadata.ID = "" ∧
    (Segment 0 noIdParsedDoc).DocumentMetadata.Title = "Untitled Document" ∧
    (Segment 0 noIdParsedDoc).DocumentMetadata.Author = "Unknown" ∧
    (Segment 0 noIdParsedDoc).DocumentMetadata.Description =
      "Automatically extracted from PDF" := by
  refine ⟨rfl, rfl, rfl, rfl⟩

/-- Claim C6 (amended).  For every parsed document, the segmented
`DocumentMetadata` has non-empty `title`, `description` and `author` (the
sentinel defaults "Untitled Document", "Automatically extracted from PDF"
and "Unknown" are substituted when extraction over the first five pages
finds nothing), while `id` is the parsed document's `DocumentID` verbatim,
with no default — it is empty exactly when `DocumentID` is. -/
theorem C6_metadata_defaults_amended (now : Int) (doc : ParsedDocument) :
    (Segment now doc).DocumentMetadata.ID = doc.Metadata.DocumentID ∧
    (Segment now doc).DocumentMetadata.Title ≠ "" ∧
    (Segment now doc).DocumentMetadata.Description ≠ "" ∧
    (Segment now doc).DocumentMetadata.Author ≠ "" := by
  show (extractMetadata doc).ID = _ ∧ (extractMetadata doc).Title ≠ "" ∧
    (extractMetadata doc).Description ≠ "" ∧ (extractMetadata doc).Author ≠ ""
  unfold extractMetadata
  dsimp only
  set scanned :=
    ((doc.Pages.take 5).flatMap Page.Blocks).foldl updateMeta
      { ID := doc.Metadata.DocumentID, Title := "", Description := "",
        Author := "", Version := "", PublicationDate := "",
        DocumentType := "", Jurisdictions := [], IndustrySectors := [] }
    with hscanned
  have hid : scanned.ID = doc.Metadata.DocumentID := by
    rw [hscanned, foldl_updateMeta_ID]
  refine ⟨?_, ?_, ?_, ?_⟩ <;>
    · repeat' split
      all_goals simp_all

/-- Claim C9.  A save mutates only the in-memory document's metadata
version field, setting it to the newly assigned version
(`getNextVersion`, i.e. the greatest existing version for that
document/type plus one); every other field of the parsed (resp. segmented)
document is returned unchanged. -/
theorem C9_save_frame (now : Int) (st : Store) (pd : ParsedDocument)
    (sd : SegmentedDocument) :
    (SaveParsed now st pd).2.Metadata.Version =
        getNextVersion st pd.Metadata.DocumentID "parsed" ∧
    (SaveParsed now st pd).2.Metadata.SourceFile = pd.Metadata.SourceFile ∧
    (SaveParsed now st pd).2.Metadata.Parser = pd.Metadata.Parser ∧
    (SaveParsed now st pd).2.Metadata.ParsedAt = pd.Metadata.ParsedAt ∧
    (SaveParsed now st pd).2.Metadata.DocumentID = pd.Metadata.DocumentID ∧
    (SaveParsed now st pd).2.Pages = pd.Pages ∧
    (SaveSegmented now st sd).2.Metadata.Version =
        getNextVersion st sd.Metadata.DocumentID "segmented" ∧
    (SaveSegmented now st sd).2.Metadata.SourceVersion =
        sd.Metadata.SourceVersion ∧
    (SaveSegmented now st sd).2.Metadata.Segmenter = sd.Metadata.Segmenter ∧
    (SaveSegmented now st sd).2.Metadata.SegmentedAt =
        sd.Metadata.SegmentedAt ∧
    (SaveSegmented now st sd).2.Metadata.DocumentID =
        sd.Metadata.DocumentID ∧
    (SaveSegmented now st sd).2.DocumentMetadata = sd.DocumentMetadata ∧
    (SaveSegmented now st sd).2.FrontMatter = sd.FrontMatter ∧
    (SaveSegmented now st sd).2.Categories = sd.Categories ∧
    (SaveSegmented now st sd).2.UnmappedContent = sd.UnmappedContent := by
  refine ⟨rfl, rfl, rfl, rfl, rfl, rfl, rfl, rfl, rfl, rfl, rfl, rfl, rfl,
    rfl, rfl⟩

/-! Concrete final-artifact filesystems for the C8 witness. -/

def someFinalDoc : L1.GuidanceDocument :=
  { Metadata :=
      { Id := "d", Title := "t", Description := "de", Author := "a",
        Version := "1.0", PublicationDate := "", DocumentType := "Standard" },
    Categories := [{ Id := "c", Title := "C", Description := "D" }] }

def fsAllMissing : String → FileRes := fun _ => .notExist

def fsYmlOnly : String → FileRes := fun name =>
  if name = "doc.yml" then .found (.ok someFinalDoc) else .notExist

/-- Claim C8.  `LoadFinal` probes `.yaml`, `.yml`, `.json` in exactly that
order and returns the first file that exists; when none of the three exists
it fails with the dedicated not-found error, which is a different error
constructor from wrapped read failures (which carry the underlying I/O
error) and from unmarshal failures; a read failure on a probed extension
propagates immediately. -/
theorem C8_load_final_order (fs : String → FileRes) (id : String) :
    (∀ d, fs (id ++ ".yaml") = .found (.ok d) → LoadFinal fs id = .ok d) ∧
    (∀ d, fs (id ++ ".yaml") = .notExist →
      fs (id ++ ".yml") = .found (.ok d) → LoadFinal fs id = .ok d) ∧
    (∀ d, fs (id ++ ".yaml") = .notExist → fs (id ++ ".yml") = .notExist →
      fs (id ++ ".json") = .found (.ok d) → LoadFinal fs id = .ok d) ∧
    (fs (id ++ ".yaml") = .notExist → fs (id ++ ".yml") = .notExist →
      fs (id ++ ".json") = .notExist →
      LoadFinal fs id = .error (.notFound id)) ∧
    (∀ e, fs (id ++ ".yaml") = .ioError e →
      LoadFinal fs id = .error (.readFailure e)) ∧
    (∀ i, LoadFinal fs id = .error (.notFound i) →
      i = id ∧ fs (id ++ ".yaml") = .notExist ∧
      fs (id ++ ".yml") = .notExist ∧ fs (id ++ ".json") = .notExist) ∧
    (∀ i e, LoadFinalError.notFound i ≠ .readFailure e ∧
      LoadFinalError.notFound i ≠ .unmarshalFailure e) := by
  refine ⟨?_, ?_, ?_, ?_, ?_, ?_, ?_⟩
  · intro d h; simp [LoadFinal, loadFinalExt, h]
  · intro d h1 h2; simp [LoadFinal, loadFinalExt, h1, h2]
  · intro d h1 h2 h3; simp [LoadFinal, loadFinalExt, h1, h2, h3]
  · intro h1 h2 h3; simp [LoadFinal, loadFinalExt, h1, h2, h3]
  · intro e h; simp [LoadFinal, loadFinalExt, h]
  · intro i h
    unfold LoadFinal loadFinalExt at h
    rcases h1 : fs (id ++ ".yaml") with c | _ | e <;> rw [h1] at h
    · rcases c with d | e <;> simp at h
    · rcases h2 : fs (id ++ ".yml") with c | _ | e <;> rw [h2] at h
      · rcases c with d | e <;> simp at h
      · rcases h3 : fs (id ++ ".json") with c | _ | e <;> rw [h3] at h
        · rcases c with d | e <;> simp at h
        · simp at h; exact ⟨h.symm, rfl, rfl, rfl⟩
        · simp at h
      · simp at h
    · simp at h
  · intro i e
    exact ⟨(fun h => nomatch h), (fun h => nomatch h)⟩

/-- Witness for C8: with no final file present, `LoadFinal` returns the
not-found error; with only `doc.yml` present, it returns that document. -/
theorem C8_load_final_order_witness :
    LoadFinal fsAllMissing "doc" = .error (.notFound "doc") ∧
    LoadFinal fsYmlOnly "doc" = .ok someFinalDoc := by
  constructor
  · exact (C8_load_final_order fsAllMissing "doc").2.2.2.1 rfl rfl rfl
  · exact (C8_load_final_order fsYmlOnly "doc").2.1 someFinalDoc rfl rfl

/-! Bounds helpers for the coverage claims. -/

lemma boolCount_le_one (b : Bool) : boolCount b ≤ 1 := by
  cases b <;> simp [boolCount]

lemma ratio_mult_bounds (c t : Nat) (m : ℚ) (hc : c ≤ t) (ht : 0 < t)
    (hm : 0 ≤ m) :
    0 ≤ (c : ℚ) / (t : ℚ) * m ∧ (c : ℚ) / (t : ℚ) * m ≤ m := by
  have ht' : (0 : ℚ) < t := by exact_mod_cast ht
  constructor
  · positivity
  · have h1 : (c : ℚ) / t ≤ 1 := by
      rw [div_le_one ht']
      exact_mod_cast hc
    calc (c : ℚ) / t * m ≤ 1 * m := mul_le_mul_of_nonneg_right h1 hm
      _ = m := one_mul m

/-- Arithmetic core of the bound on `calculateCoverageMetrics`'s overall
score. -/
lemma overallScore_bounds (rc oc tb ub : Nat) (hub : ub ≤ tb)
    (hrc : rc ≤ 4) (hoc : oc ≤ 4) :
    0 ≤ ((if (4 : Nat) > 0 then (rc : ℚ) / ((4 : Nat) : ℚ) * 60 else 0) +
          (if (4 : Nat) > 0 then (oc : ℚ) / ((4 : Nat) : ℚ) * 20 else 0)) +
        (if tb > 0 then
            (((tb : Int) - (ub : Int) : Int) : ℚ) / (tb : ℚ) * 100
          else 0) * (2 / 10) ∧
    ((if (4 : Nat) > 0 then (rc : ℚ) / ((4 : Nat) : ℚ) * 60 else 0) +
          (if (4 : Nat) > 0 then (oc : ℚ) / ((4 : Nat) : ℚ) * 20 else 0)) +
        (if tb > 0 then
            (((tb : Int) - (ub : Int) : Int) : ℚ) / (tb : ℚ) * 100
          else 0) * (2 / 10) ≤ 100 := by
  have h4 : (4 : Nat) > 0 := by norm_num
  simp only [if_pos h4]
  have hreq := ratio_mult_bounds rc 4 60 hrc h4 (by norm_num)
  have hopt := ratio_mult_bounds oc 4 20 hoc h4 (by norm_num)
  rcases Nat.eq_zero_or_pos tb with h0 | hpos
  · have : ¬ tb > 0 := by omega
    simp only [if_neg this]
    constructor <;> nlinarith [hreq.1, hreq.2, hopt.1, hopt.2]
  · simp only [if_pos hpos]
    have ht' : (0 : ℚ) < tb := by exact_mod_cast hpos
    have hub' : (ub : ℚ) ≤ (tb : ℚ) := by exact_mod_cast hub
    have hcast : (((tb : Int) - (ub : Int) : Int) : ℚ) = (tb : ℚ) - (ub : ℚ) := by
      push_cast
      ring
    rw [hcast]
    have h0b : 0 ≤ ((tb : ℚ) - ub) / tb * 100 := by
      have : 0 ≤ ((tb : ℚ) - ub) / tb := by
        apply div_nonneg _ (le_of_lt ht')
        linarith
      linarith
    have h1b : ((tb : ℚ) - ub) / tb * 100 ≤ 100 := by
      have hle : ((tb : ℚ) - ub) / tb ≤ 1 := by
        rw [div_le_one ht']
        have : (0 : ℚ) ≤ (ub : ℚ) := by positivity
        linarith
      nlinarith
    constructor <;>
      nlinarith [hreq.1, hreq.2, hopt.1, hopt.2, h0b, h1b]

/-- Arithmetic core of the bound on `calculateLayer1Coverage`'s overall
score. -/
lemma layer1Score_bounds (rc oc : Nat) (hrc : rc ≤ 4) (hoc : oc ≤ 5) :
    0 ≤ (rc : ℚ) / 4 * 70 + (oc : ℚ) / 5 * 30 ∧
    (rc : ℚ) / 4 * 70 + (oc : ℚ) / 5 * 30 ≤ 100 := by
  have h1 : (rc : ℚ) ≤ 4 := by exact_mod_cast hrc
  have h2 : (oc : ℚ) ≤ 5 := by exact_mod_cast hoc
  have h3 : 0 ≤ (rc : ℚ) := by positivity
  have h4 : 0 ≤ (oc : ℚ) := by positivity
  constructor <;> nlinarith

/-- A parsed document with a single block, for the coverage
counterexample. -/
def covParsedDoc : ParsedDocument :=
  { Metadata :=
      { SourceFile := "c.pdf", Parser := "p", ParsedAt := 0, Version := 1,
        DocumentID := "cov" },
    Pages :=
      [{ PageNumber := 1,
         Blocks := [{ Typ := .paragraph, Level := 0, Text := "x" }] }] }

def emptyDocMetadata : DocumentMetadata :=
  { ID := "", Title := "", Description := "", Author := "", Version := "",
    PublicationDate := "", DocumentType := "", Jurisdictions := [],
    IndustrySectors := [] }

/-- A segmented document carrying two unmapped-content items (more than the
parsed document above has blocks). -/
def covSegmentedDoc : SegmentedDocument :=
  { Metadata :=
      { SourceVersion := 1, Segmenter := "g", SegmentedAt := 0, Version := 1,
        DocumentID := "cov" },
    DocumentMetadata := emptyDocMetadata,
    FrontMatter := "", Categories := [],
    UnmappedContent := [⟨"a", "t", ""⟩, ⟨"b", "t", ""⟩] }

/-- The same segmented document with no unmapped content. -/
def covSegmentedDocOk : SegmentedDocument :=
  { covSegmentedDoc with UnmappedContent := [] }

/-- Claim C3 (counterexample).  The overall score is not clamped: when a
segmented document carries more unmapped-content items than the parsed
document has blocks, the block-coverage term is negative and the overall
score drops below 0. -/
theorem C3_coverage_bounds_counterexample :
    (calculateCoverageMetrics (some covParsedDoc)
        (some covSegmentedDoc)).OverallScore < 0 := by
  norm_num [calculateCoverageMetrics, covParsedDoc, covSegmentedDoc,
    emptyDocMetadata, totalBlocksOf, boolCount]

/-- Claim C3 (amended).  Whenever the number of unmapped-content items does
not exceed the parsed document's block count — in particular always for
segmenter output, which leaves `UnmappedContent` empty — the overall score
of `calculateCoverageMetrics` lies in [0, 100]; with `totalBlocks = 0` the
block-coverage term is 0 (no division error); and the overall score of
`calculateLayer1Coverage` lies in [0, 100] unconditionally. -/
theorem C3_coverage_bounds_amended :
    (∀ (parsed : ParsedDocument) (segmented : SegmentedDocument),
      segmented.UnmappedContent.length ≤ totalBlocksOf parsed →
      0 ≤ (calculateCoverageMetrics (some parsed)
            (some segmented)).OverallScore ∧
      (calculateCoverageMetrics (some parsed)
            (some segmented)).OverallScore ≤ 100) ∧
    (∀ (parsed : ParsedDocument) (segmented : SegmentedDocument),
      totalBlocksOf parsed = 0 →
      (calculateCoverageMetrics (some parsed)
            (some segmented)).BlockCoverage = 0) ∧
    (∀ doc : Option L1.GuidanceDocument,
      0 ≤ (calculateLayer1Coverage doc).OverallScore ∧
      (calculateLayer1Coverage doc).OverallScore ≤ 100) := by
  refine ⟨?_, ?_, ?_⟩
  · intro parsed segmented h
    unfold calculateCoverageMetrics
    dsimp only
    apply overallScore_bounds _ _ _ _ h
    · have := boolCount_le_one (decide (segmented.DocumentMetadata.ID ≠ ""))
      have := boolCount_le_one (decide (segmented.DocumentMetadata.Title ≠ ""))
      have := boolCount_le_one
        (decide (segmented.DocumentMetadata.Description ≠ ""))
      have := boolCount_le_one
        (decide (segmented.DocumentMetadata.Author ≠ ""))
      omega
    · have := boolCount_le_one
        (decide (segmented.DocumentMetadata.Version ≠ ""))
      have := boolCount_le_one
        (decide (segmented.DocumentMetadata.PublicationDate ≠ ""))
      have := boolCount_le_one
        (decide (segmented.DocumentMetadata.DocumentType ≠ ""))
      have := boolCount_le_one
        (decide (segmented.DocumentMetadata.Jurisdictions ≠ []))
      omega
  · intro parsed segmented h
    unfold calculateCoverageMetrics
    dsimp only
    rw [h]
    norm_num
  · intro doc
    match doc with
    | none =>
      constructor <;> simp [calculateLayer1Coverage]
    | some doc =>
      unfold calculateLayer1Coverage
      dsimp only
      apply layer1Score_bounds
      · have := boolCount_le_one (decide (doc.Metadata.Id ≠ ""))
        have := boolCount_le_one (decide (doc.Metadata.Title ≠ ""))
        have := boolCount_le_one (decide (doc.Metadata.Description ≠ ""))
        have := boolCount_le_one (decide (doc.Metadata.Author ≠ ""))
        omega
      · have := boolCount_le_one (decide (doc.Metadata.DocumentType ≠ ""))
        have := boolCount_le_one (decide (doc.Metadata.Version ≠ ""))
        have := boolCount_le_one (decide (doc.Metadata.PublicationDate ≠ ""))
        have := boolCount_le_one (decide (doc.FrontMatter ≠ ""))
        have := boolCount_le_one doc.Metadata.Applicability.isSome
        omega

/-- Witness for C3: the amended bounds applied to the concrete
one-block/no-unmapped pair and to a concrete layer-1 document. -/
theorem C3_coverage_bounds_witness :
    (0 ≤ (calculateCoverageMetrics (some covParsedDoc)
            (some covSegmentedDocOk)).OverallScore ∧
      (calculateCoverageMetrics (some covParsedDoc)
            (some covSegmentedDocOk)).OverallScore ≤ 100) ∧
    (0 ≤ (calculateLayer1Coverage (some someFinalDoc)).OverallScore ∧
      (calculateLayer1Coverage (some someFinalDoc)).OverallScore ≤ 100) :=
  ⟨C3_coverage_bounds_amended.1 covParsedDoc covSegmentedDocOk (by decide),
   C3_coverage_bounds_amended.2.2 (some someFinalDoc)⟩

/-! C10: a guideline opened while no category is open never reaches the
output. -/

lemma runSegFrom_cons (st : SegState) (b : Block) (bs : List Block) :
    runSegFrom st (b :: bs) = runSegFrom (processBlock st b) bs := rfl

/-- Claim C10.  A guideline that is open while no category is open is
silently dropped: the categories produced by the rest of the run (any
continuation of the block stream, ending with the final flush) are the same
whatever that orphan guideline holds — so its content is appended to no
category and never appears in the output, whether the stream later matches
a category, another guideline, or simply ends. -/
theorem C10_orphan_guideline_dropped (cats : List SegmentCategory)
    (acc : String) (G G' : SegmentGuideline) (bs : List Block) :
    runSegFrom { cats := cats, cur := none, curG := some G, acc := acc } bs =
    runSegFrom { cats := cats, cur := none, curG := some G', acc := acc }
      bs := by
  induction bs generalizing G G' acc with
  | nil => rfl
  | cons b bs ih =>
    rw [runSegFrom_cons, runSegFrom_cons]
    unfold processBlock flushAcc
    cases hc : categoryMatch b.Text with
    | some p =>
      dsimp only
      by_cases ha : acc = "" <;> simp [ha]
    | none =>
      cases hg : guidelineMatch b.Text with
      | some p =>
        dsimp only
        by_cases ha : acc = "" <;> simp [ha]
      | none =>
        cases hp : partMatch b.Text with
        | some p =>
          dsimp only
          exact ih _ _ _
        | none =>
          dsimp only
          split
          · exact ih _ _ _
          · exact ih _ _ _

/-! Helpers characterizing the paths and messages a validator helper can
emit. -/

lemma str_ne_of_get (i : Nat) (a b : String)
    (h : a.data[i]? ≠ b.data[i]?) : a ≠ b :=
  fun e => h (by rw [e])

lemma prefix_ne_of_get (p t : String) (i : Nat) (hi : i < p.data.length)
    (h : p.data[i]? ≠ t.data[i]?) (r : String) : (p ++ r) ≠ t := by
  apply str_ne_of_get i
  rw [show (p ++ r).data = p.data ++ r.data from rfl,
      List.getElem?_append_left hi]
  exact h

lemma mem_ite_singleton {c : Prop} [Decidable c] {x e : ValidationError}
    (h : e ∈ (if c then [x] else [])) : e = x := by
  split at h <;> simp_all

/-! Path-extension lemmas: every error a helper emits has the helper's path
argument as a prefix. -/

lemma validateMappingReference_paths (ref : L1.MappingReference) (p : String)
    (e : ValidationError) (h : e ∈ validateMappingReference ref p) :
    ∃ r, e.Path = p ++ r := by
  unfold validateMappingReference at h
  rcases List.mem_append.mp h with h | h
  · rcases List.mem_append.mp h with h | h
    · exact ⟨".id", by rw [mem_ite_singleton h]⟩
    · exact ⟨".title", by rw [mem_ite_singleton h]⟩
  · exact ⟨".version", by rw [mem_ite_singleton h]⟩

lemma validateMappingEntries_paths (p : String) (es : List L1.MappingEntry) :
    ∀ i (e : ValidationError), e ∈ validateMappingEntries p i es →
      ∃ r, e.Path = p ++ r := by
  induction es with
  | nil => intro i e h; cases h
  | cons x xs ih =>
    intro i e h
    unfold validateMappingEntries at h
    rcases List.mem_append.mp h with h | h
    · rcases List.mem_append.mp h with h | h
      · refine ⟨".entries[" ++ toString i ++ "]" ++ ".reference-id", ?_⟩
        rw [mem_ite_singleton h]
        simp [String.append_assoc]
      · refine ⟨".entries[" ++ toString i ++ "]" ++ ".strength", ?_⟩
        rw [mem_ite_singleton h]
        simp [String.append_assoc]
    · exact ih (i + 1) e h

lemma validateMapping_paths (m : L1.Mapping) (p : String)
    (e : ValidationError) (h : e ∈ validateMapping m p) :
    ∃ r, e.Path = p ++ r := by
  unfold validateMapping at h
  rcases List.mem_append.mp h with h | h
  · exact ⟨".reference-id", by rw [mem_ite_singleton h]⟩
  · exact validateMappingEntries_paths p m.Entries 0 e h

lemma validateMappings_paths (base : String) (ms : List L1.Mapping) :
    ∀ i (e : ValidationError), e ∈ validateMappings base i ms →
      ∃ r, e.Path = base ++ r := by
  induction ms with
  | nil => intro i e h; cases h
  | cons m ms ih =>
    intro i e h
    unfold validateMappings at h
    rcases List.mem_append.mp h with h | h
    · rcases validateMapping_paths m _ e h with ⟨r, hr⟩
      exact ⟨"[" ++ toString i ++ "]" ++ r, by rw [hr]; simp [String.append_assoc]⟩
    · exact ih (i + 1) e h

lemma validateTitledItems_paths (base : String) (ts : List L1.TitledItem) :
    ∀ i (e : ValidationError), e ∈ validateTitledItems base i ts →
      ∃ r, e.Path = base ++ r := by
  induction ts with
  | nil => intro i e h; cases h
  | cons t ts ih =>
    intro i e h
    unfold validateTitledItems at h
    rcases List.mem_append.mp h with h | h
    · rcases List.mem_append.mp h with h | h
      · refine ⟨"[" ++ toString i ++ "]" ++ ".title", ?_⟩
        rw [mem_ite_singleton h]
        simp [String.append_assoc]
      · refine ⟨"[" ++ toString i ++ "]" ++ ".description", ?_⟩
        rw [mem_ite_singleton h]
        simp [String.append_assoc]
    · exact ih (i + 1) e h

lemma validateRationale_paths (rat : L1.Rationale) (p : String)
    (e : ValidationError) (h : e ∈ validateRationale rat p) :
    ∃ r, e.Path = p ++ r := by
  unfold validateRationale at h
  rcases List.mem_append.mp h with h | h
  · rcases validateTitledItems_paths (p ++ ".risks") rat.Risks 0 e h with ⟨r, hr⟩
    exact ⟨".risks" ++ r, by rw [hr]; simp [String.append_assoc]⟩
  · rcases validateTitledItems_paths (p ++ ".outcomes") rat.Outcomes 0 e h with
      ⟨r, hr⟩
    exact ⟨".outcomes" ++ r, by rw [hr]; simp [String.append_assoc]⟩

lemma validatePart_paths (part : L1.Part) (p : String) (e : ValidationError)
    (h : e ∈ validatePart part p) : ∃ r, e.Path = p ++ r := by
  unfold validatePart at h
  rcases List.mem_append.mp h with h | h
  · exact ⟨".id", by rw [mem_ite_singleton h]⟩
  · exact ⟨".text", by rw [mem_ite_singleton h]⟩

lemma validateParts_paths (base : String) (ps : List L1.Part) :
    ∀ seen i (e : ValidationError), e ∈ validateParts base seen i ps →
      ∃ r, e.Path = base ++ r := by
  induction ps with
  | nil => intro seen i e h; cases h
  | cons x xs ih =>
    intro seen i e h
    unfold validateParts at h
    rcases List.mem_append.mp h with h | h
    · rcases List.mem_append.mp h with h | h
      · refine ⟨".guideline-parts[" ++ toString i ++ "]" ++ ".id", ?_⟩
        rw [mem_ite_singleton h]
        simp [String.append_assoc]
      · rcases validatePart_paths x _ e h with ⟨r, hr⟩
        exact ⟨".guideline-parts[" ++ toString i ++ "]" ++ r,
          by rw [hr]; simp [String.append_assoc]⟩
    · exact ih _ (i + 1) e h

lemma validateGuideline_paths (g : L1.Guideline) (p : String)
    (e : ValidationError) (h : e ∈ validateGuideline g p) :
    ∃ r, e.Path = p ++ r := by
  unfold validateGuideline at h
  rcases List.mem_append.mp h with h | h
  · rcases List.mem_append.mp h with h | h
    · rcases List.mem_append.mp h with h | h
      · rcases List.mem_append.mp h with h | h
        · rcases List.mem_append.mp h with h | h
          · exact ⟨".id", by rw [mem_ite_singleton h]⟩
          · exact ⟨".title", by rw [mem_ite_singleton h]⟩
        · match hr : g.Rationale with
          | some rat =>
            rw [hr] at h
            rcases validateRationale_paths rat _ e h with ⟨r, hrr⟩
            exact ⟨".rationale" ++ r, by rw [hrr]; simp [String.append_assoc]⟩
          | none => rw [hr] at h; cases h
      · exact validateParts_paths p g.GuidelineParts [] 0 e h
    · rcases validateMappings_paths (p ++ ".guideline-mappings")
        g.GuidelineMappings 0 e h with ⟨r, hr⟩
      exact ⟨".guideline-mappings" ++ r, by rw [hr]; simp [String.append_assoc]⟩
  · rcases validateMappings_paths (p ++ ".principle-mappings")
      g.PrincipleMappings 0 e h with ⟨r, hr⟩
    exact ⟨".principle-mappings" ++ r, by rw [hr]; simp [String.append_assoc]⟩

lemma validateGuidelines_paths (base : String) (gs : List L1.Guideline) :
    ∀ seen i (e : ValidationError), e ∈ validateGuidelines base seen i gs →
      ∃ r, e.Path = base ++ r := by
  induction gs with
  | nil => intro seen i e h; cases h
  | cons g gs ih =>
    intro seen i e h
    unfold validateGuidelines at h
    rcases List.mem_append.mp h with h | h
    · rcases List.mem_append.mp h with h | h
      · refine ⟨".guidelines[" ++ toString i ++ "]" ++ ".id", ?_⟩
        rw [mem_ite_singleton h]
        simp [String.append_assoc]
      · rcases validateGuideline_paths g _ e h with ⟨r, hr⟩
        exact ⟨".guidelines[" ++ toString i ++ "]" ++ r,
          by rw [hr]; simp [String.append_assoc]⟩
    · exact ih _ (i + 1) e h

lemma validateCategory_paths (c : L1.Category) (p : String)
    (e : ValidationError) (h : e ∈ validateCategory c p) :
    ∃ r, e.Path = p ++ r := by
  unfold validateCategory at h
  rcases List.mem_append.mp h with h | h
  · rcases List.mem_append.mp h with h | h
    · rcases List.mem_append.mp h with h | h
      · exact ⟨".id", by rw [mem_ite_singleton h]⟩
      · exact ⟨".title", by rw [mem_ite_singleton h]⟩
    · exact ⟨".description", by rw [mem_ite_singleton h]⟩
  · exact validateGuidelines_paths p c.Guidelines [] 0 e h

lemma validateCategoriesAux_paths (cs : List L1.Category) :
    ∀ seen i (e : ValidationError), e ∈ validateCategoriesAux seen i cs →
      ∃ r, e.Path = "categories[" ++ r := by
  induction cs with
  | nil => intro seen i e h; cases h
  | cons c cs ih =>
    intro seen i e h
    unfold validateCategoriesAux at h
    rcases List.mem_append.mp h with h | h
    · rcases List.mem_append.mp h with h | h
      · refine ⟨toString i ++ "]" ++ ".id", ?_⟩
        rw [mem_ite_singleton h]
        simp [String.append_assoc]
      · rcases validateCategory_paths c _ e h with ⟨r, hr⟩
        exact ⟨toString i ++ "]" ++ r, by rw [hr]; simp [String.append_assoc]⟩
    · exact ih _ (i + 1) e h

lemma validateMappingReferences_paths (rs : List L1.MappingReference) :
    ∀ i (e : ValidationError), e ∈ validateMappingReferences i rs →
      ∃ r, e.Path = "metadata.mapping-references[" ++ r := by
  induction rs with
  | nil => intro i e h; cases h
  | cons x xs ih =>
    intro i e h
    unfold validateMappingReferences at h
    rcases List.mem_append.mp h with h | h
    · rcases validateMappingReference_paths x _ e h with ⟨r, hr⟩
      exact ⟨toString i ++ "]" ++ r, by rw [hr]; simp [String.append_assoc]⟩
    · exact ih (i + 1) e h

/-! Message-set lemmas: the closed set of messages each validator helper can
emit. -/

lemma validateMappingReference_msgs (ref : L1.MappingReference) (p : String)
    (e : ValidationError) (h : e ∈ validateMappingReference ref p) :
    e.Message = reqMsg := by
  unfold validateMappingReference at h
  rcases List.mem_append.mp h with h | h
  · rcases List.mem_append.mp h with h | h <;> rw [mem_ite_singleton h]
  · rw [mem_ite_singleton h]

lemma validateMappingEntries_msgs (p : String) (es : List L1.MappingEntry) :
    ∀ i (e : ValidationError), e ∈ validateMappingEntries p i es →
      e.Message = reqMsg ∨ e.Message = "should be between 0 and 100" := by
  induction es with
  | nil => intro i e h; cases h
  | cons x xs ih =>
    intro i e h
    unfold validateMappingEntries at h
    rcases List.mem_append.mp h with h | h
    · rcases List.mem_append.mp h with h | h
      · left; rw [mem_ite_singleton h]
      · right; rw [mem_ite_singleton h]
    · exact ih (i + 1) e h

lemma validateMapping_msgs (m : L1.Mapping) (p : String)
    (e : ValidationError) (h : e ∈ validateMapping m p) :
    e.Message = reqMsg ∨ e.Message = "should be between 0 and 100" := by
  unfold validateMapping at h
  rcases List.mem_append.mp h with h | h
  · left; rw [mem_ite_singleton h]
  · exact validateMappingEntries_msgs p m.Entries 0 e h

lemma validateMappings_msgs (base : String) (ms : List L1.Mapping) :
    ∀ i (e : ValidationError), e ∈ validateMappings base i ms →
      e.Message = reqMsg ∨ e.Message = "should be between 0 and 100" := by
  induction ms with
  | nil => intro i e h; cases h
  | cons m ms ih =>
    intro i e h
    unfold validateMappings at h
    rcases List.mem_append.mp h with h | h
    · exact validateMapping_msgs m _ e h
    · exact ih (i + 1) e h

lemma validateTitledItems_msgs (base : String) (ts : List L1.TitledItem) :
    ∀ i (e : ValidationError), e ∈ validateTitledItems base i ts →
      e.Message = reqMsg := by
  induction ts with
  | nil => intro i e h; cases h
  | cons t ts ih =>
    intro i e h
    unfold validateTitledItems at h
    rcases List.mem_append.mp h with h | h
    · rcases List.mem_append.mp h with h | h <;> rw [mem_ite_singleton h]
    · exact ih (i + 1) e h

lemma validateRationale_msgs (rat : L1.Rationale) (p : String)
    (e : ValidationError) (h : e ∈ validateRationale rat p) :
    e.Message = reqMsg := by
  unfold validateRationale at h
  rcases List.mem_append.mp h with h | h
  · exact validateTitledItems_msgs _ rat.Risks 0 e h
  · exact validateTitledItems_msgs _ rat.Outcomes 0 e h

lemma validatePart_msgs (part : L1.Part) (p : String) (e : ValidationError)
    (h : e ∈ validatePart part p) : e.Message = reqMsg := by
  unfold validatePart at h
  rcases List.mem_append.mp h with h | h <;> rw [mem_ite_singleton h]

lemma validateParts_msgs (base : String) (ps : List L1.Part) :
    ∀ seen i (e : ValidationError), e ∈ validateParts base seen i ps →
      e.Message = reqMsg ∨
      e.Message = "duplicate part ID within guideline" := by
  induction ps with
  | nil => intro seen i e h; cases h
  | cons x xs ih =>
    intro seen i e h
    unfold validateParts at h
    rcases List.mem_append.mp h with h | h
    · rcases List.mem_append.mp h with h | h
      · right; rw [mem_ite_singleton h]
      · left; exact validatePart_msgs x _ e h
    · exact ih _ (i + 1) e h

lemma validateGuideline_msgs (g : L1.Guideline) (p : String)
    (e : ValidationError) (h : e ∈ validateGuideline g p) :
    e.Message = reqMsg ∨
    e.Message = "duplicate part ID within guideline" ∨
    e.Message = "should be between 0 and 100" := by
  unfold validateGuideline at h
  rcases List.mem_append.mp h with h | h
  · rcases List.mem_append.mp h with h | h
    · rcases List.mem_append.mp h with h | h
      · rcases List.mem_append.mp h with h | h
        · rcases List.mem_append.mp h with h | h <;>
            exact Or.inl (by rw [mem_ite_singleton h])
        · match hr : g.Rationale with
          | some rat =>
            rw [hr] at h
            exact Or.inl (validateRationale_msgs rat _ e h)
          | none => rw [hr] at h; cases h
      · rcases validateParts_msgs p g.GuidelineParts [] 0 e h with h1 | h1
        · exact Or.inl h1
        · exact Or.inr (Or.inl h1)
    · rcases validateMappings_msgs _ g.GuidelineMappings 0 e h with h1 | h1
      · exact Or.inl h1
      · exact Or.inr (Or.inr h1)
  · rcases validateMappings_msgs _ g.PrincipleMappings 0 e h with h1 | h1
    · exact Or.inl h1
    · exact Or.inr (Or.inr h1)

lemma validateGuidelines_msgs (base : String) (gs : List L1.Guideline) :
    ∀ seen i (e : ValidationError), e ∈ validateGuidelines base seen i gs →
      e.Message = reqMsg ∨
      e.Message = "duplicate part ID within guideline" ∨
      e.Message = "should be between 0 and 100" ∨
      e.Message = "duplicate guideline ID within category" := by
  induction gs with
  | nil => intro seen i e h; cases h
  | cons g gs ih =>
    intro seen i e h
    unfold validateGuidelines at h
    rcases List.mem_append.mp h with h | h
    · rcases List.mem_append.mp h with h | h
      · exact Or.inr (Or.inr (Or.inr (by rw [mem_ite_singleton h])))
      · rcases validateGuideline_msgs g _ e h with h1 | h1 | h1
        · exact Or.inl h1
        · exact Or.inr (Or.inl h1)
        · exact Or.inr (Or.inr (Or.inl h1))
    · exact ih _ (i + 1) e h

lemma validateCategory_msgs (c : L1.Category) (p : String)
    (e : ValidationError) (h : e ∈ validateCategory c p) :
    e.Message = reqMsg ∨
    e.Message = "duplicate part ID within guideline" ∨
    e.Message = "should be between 0 and 100" ∨
    e.Message = "duplicate guideline ID within category" := by
  unfold validateCategory at h
  rcases List.mem_append.mp h with h | h
  · rcases List.mem_append.mp h with h | h
    · rcases List.mem_append.mp h with h | h <;>
        exact Or.inl (by rw [mem_ite_singleton h])
    · exact Or.inl (by rw [mem_ite_singleton h])
  · exact validateGuidelines_msgs p c.Guidelines [] 0 e h

lemma validateMappingReferences_msgs (rs : List L1.MappingReference) :
    ∀ i (e : ValidationError), e ∈ validateMappingReferences i rs →
      e.Message = reqMsg := by
  induction rs with
  | nil => intro i e h; cases h
  | cons x xs ih =>
    intro i e h
    unfold validateMappingReferences at h
    rcases List.mem_append.mp h with h | h
    · exact validateMappingReference_msgs x _ e h
    · exact ih (i + 1) e h

lemma validateMetadata_msgs (strict : Bool) (meta : L1.Metadata)
    (e : ValidationError) (h : e ∈ validateMetadata strict meta) :
    e.Message = reqMsg ∨
    e.Message =
      "must be one of: Standard, Regulation, Best Practice, Framework" ∨
    e.Message = "required field is empty (strict mode)" := by
  unfold validateMetadata at h
  rcases List.mem_append.mp h with h | h
  · rcases List.mem_append.mp h with h | h
    · rcases List.mem_append.mp h with h | h
      · rcases List.mem_append.mp h with h | h
        · rcases List.mem_append.mp h with h | h
          · rcases List.mem_append.mp h with h | h <;>
              exact Or.inl (by rw [mem_ite_singleton h])
          · exact Or.inl (by rw [mem_ite_singleton h])
        · exact Or.inl (by rw [mem_ite_singleton h])
      · split at h
        · exact Or.inr (Or.inl (by rw [mem_ite_singleton h]))
        · split at h
          · simp only [List.mem_singleton] at h
            exact Or.inr (Or.inr (by rw [h]))
          · cases h
    · split at h
      · simp only [validateApplicability] at h
        cases h
      · cases h
  · exact Or.inl (validateMappingReferences_msgs meta.MappingReferences 0 e h)

/-! Concrete guidance documents for the C5 and C7 claims. -/

/-- A guidance document with filled metadata, no document type and no
categories. -/
def noCatsDoc : L1.GuidanceDocument :=
  { Metadata :=
      { Id := "d", Title := "t", Description := "de", Author := "a",
        Version := "", PublicationDate := "", DocumentType := "" },
    Categories := [] }

/-- A guidance document with filled metadata, no document type and one
complete category. -/
def noTypeDoc : L1.GuidanceDocument :=
  { Metadata :=
      { Id := "d", Title := "t", Description := "de", Author := "a",
        Version := "", PublicationDate := "", DocumentType := "" },
    Categories := [{ Id := "c", Title := "C", Description := "D" }] }

/-- Claim C5 (counterexample).  A non-strict `Validate` of a document with
an empty category list does produce the "document must have at least one
category" violation, contradicting the claim that this requirement is
enforced only in strict mode. -/
theorem C5_strict_mode_counterexample :
    (⟨"categories", "document must have at least one category",
        .none⟩ : ValidationError) ∈ (Validate false noCatsDoc).Errors := by
  decide

/-- Claim C5 (amended).  Document-type presence is enforced only in strict
mode: with an absent document type, non-strict `Validate` emits no
violation at path "metadata.document-type" while strict `Validate` emits
the dedicated strict-mode violation there.  The requirement that the
category list be non-empty, however, is enforced in both modes. -/
theorem C5_strict_mode_amended :
    (∀ doc : L1.GuidanceDocument, doc.Metadata.DocumentType = "" →
      ∀ e ∈ (Validate false doc).Errors,
        e.Path ≠ "metadata.document-type") ∧
    (∀ doc : L1.GuidanceDocument, doc.Metadata.DocumentType = "" →
      (⟨"metadata.document-type", "required field is empty (strict mode)",
          .none⟩ : ValidationError) ∈ (Validate true doc).Errors) ∧
    (∀ (doc : L1.GuidanceDocument) (strict : Bool), doc.Categories = [] →
      (⟨"categories", "document must have at least one category",
          .none⟩ : ValidationError) ∈ (Validate strict doc).Errors) := by
  refine ⟨?_, ?_, ?_⟩
  · intro doc hdt e he
    unfold Validate at he
    dsimp only at he
    rcases List.mem_append.mp he with he | he
    · rcases List.mem_append.mp he with he | he
      · rcases List.mem_append.mp he with he | he
        · -- metadata errors
          unfold validateMetadata at he
          rw [hdt] at he
          simp only [ne_eq, not_true_eq_false, if_false,
            Bool.false_eq_true, List.append_nil] at he
          rcases List.mem_append.mp he with he | he
          · rcases List.mem_append.mp he with he | he
            · rcases List.mem_append.mp he with he | he
              · rcases List.mem_append.mp he with he | he
                · rcases List.mem_append.mp he with he | he
                  · rw [mem_ite_singleton he]; decide
                  · rw [mem_ite_singleton he]; decide
                · rw [mem_ite_singleton he]; decide
              · rw [mem_ite_singleton he]; decide
            · split at he
              · simp only [validateApplicability] at he
                cases he
              · cases he
          · rcases validateMappingReferences_paths doc.Metadata.MappingReferences
              0 e he with ⟨r, hr⟩
            rw [hr]
            exact prefix_ne_of_get _ _ 9 (by decide) (by decide) r
        · -- category errors
          unfold validateCategories at he
          split at he
          · rw [List.mem_singleton] at he
            rw [he]; decide
          · rcases validateCategoriesAux_paths doc.Categories [] 0 e he with
              ⟨r, hr⟩
            rw [hr]
            exact prefix_ne_of_get _ _ 0 (by decide) (by decide) r
      · rcases validateMappings_paths "imported-guidelines"
          doc.ImportedGuidelines 0 e he with ⟨r, hr⟩
        rw [hr]
        exact prefix_ne_of_get _ _ 0 (by decide) (by decide) r
    · rcases validateMappings_paths "imported-principles"
        doc.ImportedPrinciples 0 e he with ⟨r, hr⟩
      rw [hr]
      exact prefix_ne_of_get _ _ 0 (by decide) (by decide) r
  · intro doc hdt
    unfold Validate
    dsimp only
    refine List.mem_append_left _ (List.mem_append_left _
      (List.mem_append_left _ ?_))
    unfold validateMetadata
    rw [hdt]
    simp [List.mem_append]
  · intro doc strict hcats
    unfold Validate
    dsimp only
    refine List.mem_append_left _ (List.mem_append_left _
      (List.mem_append_right _ ?_))
    unfold validateCategories
    rw [hcats]
    simp

/-- Witness for C5: the amended statement applied to concrete documents
(`noTypeDoc` without a document type, `noCatsDoc` without categories). -/
theorem C5_strict_mode_witness :
    (Validate false noTypeDoc).Errors.all
        (fun e => decide (e.Path ≠ "metadata.document-type")) = true ∧
    (⟨"metadata.document-type", "required field is empty (strict mode)",
        .none⟩ : ValidationError) ∈ (Validate true noTypeDoc).Errors ∧
    (⟨"categories", "document must have at least one category",
        .none⟩ : ValidationError) ∈ (Validate false noCatsDoc).Errors := by
  refine ⟨?_, C5_strict_mode_amended.2.1 noTypeDoc rfl,
    C5_strict_mode_amended.2.2 noCatsDoc false rfl⟩
  apply List.all_eq_true.mpr
  intro e he
  exact decide_eq_true (C5_strict_mode_amended.1 noTypeDoc rfl e he)

/-! Filter lemmas for the duplicate-ID claim. -/

lemma filter_validateMetadata_dup (strict : Bool) (meta : L1.Metadata)
    (msg : String) (h1 : reqMsg ≠ msg)
    (h2 : "must be one of: Standard, Regulation, Best Practice, Framework"
      ≠ msg)
    (h3 : "required field is empty (strict mode)" ≠ msg) :
    (validateMetadata strict meta).filter (fun e => e.Message == msg)
      = [] := by
  rw [List.filter_eq_nil_iff]
  intro e he
  rcases validateMetadata_msgs strict meta e he with h | h | h <;>
    simp [h, h1, h2, h3]

lemma filter_validateMappings_dup (base : String) (ms : List L1.Mapping)
    (i : Nat) (msg : String) (h1 : reqMsg ≠ msg)
    (h2 : "should be between 0 and 100" ≠ msg) :
    (validateMappings base i ms).filter (fun e => e.Message == msg) = [] := by
  rw [List.filter_eq_nil_iff]
  intro e he
  rcases validateMappings_msgs base ms i e he with h | h <;>
    simp [h, h1, h2]

lemma filter_req_singleton (cnd : Prop) [Decidable cnd] (pth msg : String)
    (h : (reqMsg == msg) = false) :
    (if cnd then [(⟨pth, reqMsg, VValue.none⟩ : ValidationError)]
      else []).filter (fun e => e.Message == msg) = [] := by
  split <;> simp [h]

lemma filter_validateCategory_dupCat (c : L1.Category) (p : String) :
    (validateCategory c p).filter
      (fun e => e.Message == "duplicate category ID") = [] := by
  rw [List.filter_eq_nil_iff]
  intro e he
  rcases validateCategory_msgs c p e he with h | h | h | h <;>
    simp [h, reqMsg]

lemma filter_validateGuideline_dupGuide (g : L1.Guideline) (p : String) :
    (validateGuideline g p).filter
      (fun e => e.Message == "duplicate guideline ID within category")
      = [] := by
  rw [List.filter_eq_nil_iff]
  intro e he
  rcases validateGuideline_msgs g p e he with h | h | h <;>
    simp [h, reqMsg]

/-- Claim C7.  A document whose two categories share one non-empty ID
produces exactly one duplicate-category violation, at the second
occurrence's path "categories[1].id" with message "duplicate category ID";
and a document with one category whose two guidelines share one non-empty
ID produces exactly one duplicate-guideline violation, at
"categories[0].guidelines[1].id" with message "duplicate guideline ID
within category". -/
theorem C7_duplicate_id_detection :
    (∀ (doc : L1.GuidanceDocument) (c0 c1 : L1.Category) (strict : Bool),
      doc.Categories = [c0, c1] → c0.Id = c1.Id → c0.Id ≠ "" →
      (Validate strict doc).Errors.filter
          (fun e => e.Message == "duplicate category ID") =
        [⟨"categories[1].id", "duplicate category ID", .str c1.Id⟩]) ∧
    (∀ (doc : L1.GuidanceDocument) (c : L1.Category)
        (g0 g1 : L1.Guideline) (strict : Bool),
      doc.Categories = [c] → c.Guidelines = [g0, g1] → g0.Id = g1.Id →
      g0.Id ≠ "" →
      (Validate strict doc).Errors.filter
          (fun e => e.Message == "duplicate guideline ID within category") =
        [⟨"categories[0].guidelines[1].id",
          "duplicate guideline ID within category", .str g1.Id⟩]) := by
  constructor
  · intro doc c0 c1 strict hcats hid hne
    have hne1 : c1.Id ≠ "" := by rw [← hid]; exact hne
    unfold Validate
    dsimp only
    rw [hcats, List.filter_append, List.filter_append, List.filter_append,
      filter_validateMetadata_dup _ _ _ (by decide) (by decide) (by decide),
      filter_validateMappings_dup _ _ _ _ (by decide) (by decide),
      filter_validateMappings_dup _ _ _ _ (by decide) (by decide)]
    unfold validateCategories
    simp only [List.isEmpty_cons, if_false, Bool.false_eq_true]
    unfold validateCategoriesAux
    unfold validateCategoriesAux
    simp only [List.contains_nil, Bool.and_false, if_false,
      List.nil_append, List.append_nil, Bool.false_eq_true]
    rw [if_pos hne]
    rw [List.filter_append, List.filter_append,
      filter_validateCategory_dupCat]
    have hc01 : ([c0.Id].contains c1.Id) = true := by simp [← hid]
    have hd1 : decide (c1.Id ≠ "") = true := decide_eq_true hne1
    rw [List.filter_append, filter_validateCategory_dupCat]
    simp only [validateCategoriesAux, hc01, hd1, Bool.and_self, if_true,
      List.filter_nil, List.append_nil, List.nil_append]
    have hp : ("categories[" ++ toString (0 + 1 : Nat) ++ "]" ++ ".id")
        = "categories[1].id" := by decide
    simp [hp]
  · intro doc c g0 g1 strict hcats hguides hid hne
    have hne1 : g1.Id ≠ "" := by rw [← hid]; exact hne
    unfold Validate
    dsimp only
    rw [hcats, List.filter_append, List.filter_append, List.filter_append,
      filter_validateMetadata_dup _ _ _ (by decide) (by decide) (by decide),
      filter_validateMappings_dup _ _ _ _ (by decide) (by decide),
      filter_validateMappings_dup _ _ _ _ (by decide) (by decide)]
    unfold validateCategories
    simp only [List.isEmpty_cons, if_false, Bool.false_eq_true]
    unfold validateCategoriesAux
    simp only [List.contains_nil, Bool.and_false, if_false,
      List.nil_append, List.append_nil, Bool.false_eq_true]
    unfold validateCategory
    rw [hguides]
    unfold validateGuidelines
    unfold validateGuidelines
    simp only [List.contains_nil, Bool.and_false, if_false,
      List.nil_append, List.append_nil, Bool.false_eq_true]
    rw [if_pos hne]
    rw [List.filter_append, List.filter_append, List.filter_append,
      List.filter_append, List.filter_append,
      filter_validateGuideline_dupGuide]
    rw [List.filter_append, List.filter_append,
      filter_validateGuideline_dupGuide]
    have hg01 : ([g0.Id].contains g1.Id) = true := by simp [← hid]
    have hd1 : decide (g1.Id ≠ "") = true := decide_eq_true hne1
    rw [filter_req_singleton _ _ _ (by decide),
      filter_req_singleton _ _ _ (by decide),
      filter_req_singleton _ _ _ (by decide)]
    simp only [validateGuidelines, validateCategoriesAux, hg01, hd1,
      Bool.and_self, if_true, List.filter_nil, List.append_nil,
      List.nil_append]
    have hp2 : ("categories[" ++ toString (0 : Nat) ++ "]" ++
        ".guidelines[" ++ toString (0 + 1 : Nat) ++ "]" ++ ".id")
        = "categories[0].guidelines[1].id" := by decide
    simp [hp2]

/-- Witness for C7: the duplicate-ID statements applied to concrete
documents with two categories both "cat-1" and two guidelines both
"g-1". -/
def dupCatDoc : L1.GuidanceDocument :=
  { Metadata :=
      { Id := "d", Title := "t", Description := "de", Author := "a",
        Version := "", PublicationDate := "", DocumentType := "" },
    Categories :=
      [{ Id := "cat-1", Title := "C1", Description := "D" },
       { Id := "cat-1", Title := "C2", Description := "D" }] }

def dupGuideDoc : L1.GuidanceDocument :=
  { Metadata :=
      { Id := "d", Title := "t", Description := "de", Author := "a",
        Version := "", PublicationDate := "", DocumentType := "" },
    Categories :=
      [{ Id := "c", Title := "C", Description := "D",
         Guidelines :=
           [{ Id := "g-1", Title := "G1" }, { Id := "g-1", Title := "G2" }] }] }

theorem C7_duplicate_id_detection_witness :
    (Validate false dupCatDoc).Errors.filter
        (fun e => e.Message == "duplicate category ID") =
      [⟨"categories[1].id", "duplicate category ID", .str "cat-1"⟩] ∧
    (Validate false dupGuideDoc).Errors.filter
        (fun e => e.Message == "duplicate guideline ID within category") =
      [⟨"categories[0].guidelines[1].id",
        "duplicate guideline ID within category", .str "g-1"⟩] :=
  ⟨C7_duplicate_id_detection.1 dupCatDoc
      { Id := "cat-1", Title := "C1", Description := "D" }
      { Id := "cat-1", Title := "C2", Description := "D" }
      false rfl rfl (by decide),
   C7_duplicate_id_detection.2 dupGuideDoc
      { Id := "c", Title := "C", Description := "D",
        Guidelines :=
          [{ Id := "g-1", Title := "G1" }, { Id := "g-1", Title := "G2" }] }
      { Id := "g-1", Title := "G1" } { Id := "g-1", Title := "G2" }
      false rfl rfl rfl (by decide)⟩

/-! Projection lemmas for the converter. -/

lemma convertMetadata_Id (m : DocumentMetadata) :
    (convertMetadata m).Id = m.ID := by
  unfold convertMetadata
  repeat' split
  all_goals rfl

lemma convertMetadata_Title (m : DocumentMetadata) :
    (convertMetadata m).Title = m.Title := by
  unfold convertMetadata
  repeat' split
  all_goals rfl

lemma convertMetadata_Description (m : DocumentMetadata) :
    (convertMetadata m).Description = m.Description := by
  unfold convertMetadata
  repeat' split
  all_goals rfl

lemma convertMetadata_Author (m : DocumentMetadata) :
    (convertMetadata m).Author = m.Author := by
  unfold convertMetadata
  repeat' split
  all_goals rfl

lemma convertMetadata_DocumentType (m : DocumentMetadata) :
    (convertMetadata m).DocumentType = m.DocumentType := by
  unfold convertMetadata
  repeat' split
  all_goals simp_all

lemma convertMetadata_MappingReferences (m : DocumentMetadata) :
    (convertMetadata m).MappingReferences = [] := by
  unfold convertMetadata
  repeat' split
  all_goals rfl

/-! Emptiness lemmas: with all required fields present and sibling IDs
unique, the validator helpers emit nothing. -/

lemma validateParts_nil (base : String) (ps : List L1.Part) :
    ∀ (seen : List String) (i : Nat),
      (∀ q ∈ ps, q.Id ≠ "" ∧ q.Text ≠ "") →
      (ps.map L1.Part.Id).Nodup →
      (∀ q ∈ ps, q.Id ∉ seen) →
      validateParts base seen i ps = [] := by
  induction ps with
  | nil => intro seen i _ _ _; rfl
  | cons x xs ih =>
    intro seen i hf hnd hseen
    unfold validateParts
    dsimp only
    have hx := hf x (by simp)
    have hcont : seen.contains x.Id = false := by
      simp [hseen x (by simp)]
    have hhead : x.Id ∉ xs.map L1.Part.Id := (List.nodup_cons.mp (by
      simpa using hnd)).1
    have hrec := ih (x.Id :: seen) (i + 1)
      (fun q hq => hf q (List.mem_cons_of_mem _ hq))
      (List.nodup_cons.mp (by simpa using hnd)).2
      (by
        intro q hq
        simp only [List.mem_cons]
        push_neg
        refine ⟨?_, hseen q (List.mem_cons_of_mem _ hq)⟩
        intro hqx
        exact hhead (hqx ▸ List.mem_map_of_mem L1.Part.Id hq))
    have hvp : validatePart x
        (base ++ ".guideline-parts[" ++ toString i ++ "]") = [] := by
      unfold validatePart
      rw [if_neg (by simpa using hx.1), if_neg (by simpa using hx.2)]
      rfl
    rw [hcont, if_pos hx.1, hrec]
    simp [hvp]

lemma validateGuideline_nil (g : L1.Guideline) (p : String)
    (hid : g.Id ≠ "") (htitle : g.Title ≠ "") (hrat : g.Rationale = none)
    (hgm : g.GuidelineMappings = []) (hpm : g.PrincipleMappings = [])
    (hparts : ∀ q ∈ g.GuidelineParts, q.Id ≠ "" ∧ q.Text ≠ "")
    (hnd : (g.GuidelineParts.map L1.Part.Id).Nodup) :
    validateGuideline g p = [] := by
  unfold validateGuideline
  rw [hrat, hgm, hpm,
    validateParts_nil p g.GuidelineParts [] 0 hparts hnd (by simp),
    if_neg (by simpa using hid), if_neg (by simpa using htitle)]
  rfl

lemma validateGuidelines_nil (base : String) (gs : List L1.Guideline) :
    ∀ (seen : List String) (i : Nat),
      (∀ g ∈ gs, ∀ q, validateGuideline g q = []) →
      (gs.map L1.Guideline.Id).Nodup →
      (∀ g ∈ gs, g.Id ≠ "") →
      (∀ g ∈ gs, g.Id ∉ seen) →
      validateGuidelines base seen i gs = [] := by
  induction gs with
  | nil => intro seen i _ _ _ _; rfl
  | cons x xs ih =>
    intro seen i hval hnd hne hseen
    unfold validateGuidelines
    dsimp only
    have hcont : seen.contains x.Id = false := by simp [hseen x (by simp)]
    have hhead : x.Id ∉ xs.map L1.Guideline.Id :=
      (List.nodup_cons.mp (by simpa using hnd)).1
    rw [hcont, if_pos (hne x (by simp)), hval x (by simp),
      ih (x.Id :: seen) (i + 1)
        (fun g hg q => hval g (List.mem_cons_of_mem _ hg) q)
        (List.nodup_cons.mp (by simpa using hnd)).2
        (fun g hg => hne g (List.mem_cons_of_mem _ hg))
        (by
          intro g hg
          simp only [List.mem_cons]
          push_neg
          refine ⟨?_, hseen g (List.mem_cons_of_mem _ hg)⟩
          intro hgx
          exact hhead (hgx ▸ List.mem_map_of_mem L1.Guideline.Id hg))]
    simp

lemma validateCategory_nil (c : L1.Category) (p : String)
    (hid : c.Id ≠ "") (htitle : c.Title ≠ "") (hdesc : c.Description ≠ "")
    (hg : ∀ g ∈ c.Guidelines, ∀ q, validateGuideline g q = [])
    (hnd : (c.Guidelines.map L1.Guideline.Id).Nodup)
    (hgne : ∀ g ∈ c.Guidelines, g.Id ≠ "") :
    validateCategory c p = [] := by
  unfold validateCategory
  rw [if_neg (by simpa using hid), if_neg (by simpa using htitle),
    if_neg (by simpa using hdesc),
    validateGuidelines_nil p c.Guidelines [] 0 hg hnd hgne (by simp)]
  rfl

lemma validateCategoriesAux_nil (cs : List L1.Category) :
    ∀ (seen : List String) (i : Nat),
      (∀ c ∈ cs, ∀ q, validateCategory c q = []) →
      (cs.map L1.Category.Id).Nodup →
      (∀ c ∈ cs, c.Id ≠ "") →
      (∀ c ∈ cs, c.Id ∉ seen) →
      validateCategoriesAux seen i cs = [] := by
  induction cs with
  | nil => intro seen i _ _ _ _; rfl
  | cons x xs ih =>
    intro seen i hval hnd hne hseen
    unfold validateCategoriesAux
    dsimp only
    have hcont : seen.contains x.Id = false := by simp [hseen x (by simp)]
    have hhead : x.Id ∉ xs.map L1.Category.Id :=
      (List.nodup_cons.mp (by simpa using hnd)).1
    rw [hcont, if_pos (hne x (by simp)), hval x (by simp),
      ih (x.Id :: seen) (i + 1)
        (fun c hc q => hval c (List.mem_cons_of_mem _ hc) q)
        (List.nodup_cons.mp (by simpa using hnd)).2
        (fun c hc => hne c (List.mem_cons_of_mem _ hc))
        (by
          intro c hc
          simp only [List.mem_cons]
          push_neg
          refine ⟨?_, hseen c (List.mem_cons_of_mem _ hc)⟩
          intro hcx
          exact hhead (hcx ▸ List.mem_map_of_mem L1.Category.Id hc))]
    simp

/-- A segmented document satisfying the original claim's hypotheses whose
single category has an empty description. -/
def badCatSegDoc : SegmentedDocument :=
  { Metadata :=
      { SourceVersion := 1, Segmenter := "g", SegmentedAt := 0, Version := 1,
        DocumentID := "d" },
    DocumentMetadata :=
      { ID := "d", Title := "t", Description := "de", Author := "a",
        Version := "", PublicationDate := "", DocumentType := "",
        Jurisdictions := [], IndustrySectors := [] },
    FrontMatter := "",
    Categories := [{ ID := "c1", Title := "T", Description := "" }] }

/-- A segmented document with every required field filled in. -/
def validSegDoc : SegmentedDocument :=
  { Metadata :=
      { SourceVersion := 1, Segmenter := "g", SegmentedAt := 0, Version := 1,
        DocumentID := "d" },
    DocumentMetadata :=
      { ID := "TEST-STD", Title := "Test Security Standard",
        Description := "A test security standard", Author := "Test Author",
        Version := "1.0", PublicationDate := "", DocumentType := "",
        Jurisdictions := [], IndustrySectors := [] },
    FrontMatter := "",
    Categories :=
      [{ ID := "AC", Title := "Access Control",
         Description := "Access control requirements",
         Guidelines :=
           [{ ID := "AC-1", Title := "User Authentication",
              Objective := "Ensure proper user authentication",
              Recommendations := ["Use strong passwords"],
              Parts :=
                [{ ID := "AC-1.1", Title := "",
                   Text := "All users must authenticate",
                   Recommendations := [] }] }] }] }

/-- Claim C2 (counterexample).  A segmented document whose metadata has all
four required fields non-empty and whose category list is non-empty can
still fail non-strict validation after conversion: a category with an empty
description yields a "required field is empty" violation, so the claimed
hypotheses are not sufficient. -/
theorem C2_round_trip_validity_counterexample :
    badCatSegDoc.DocumentMetadata.ID ≠ "" ∧
    badCatSegDoc.DocumentMetadata.Title ≠ "" ∧
    badCatSegDoc.DocumentMetadata.Description ≠ "" ∧
    badCatSegDoc.DocumentMetadata.Author ≠ "" ∧
    badCatSegDoc.Categories ≠ [] ∧
    (Validate false (Convert badCatSegDoc)).Valid = false := by
  decide

/-- Claim C2 (amended).  Converting and then non-strictly validating a
segmented document yields a valid result provided, in addition to the four
non-empty metadata fields and the non-empty category list, that the
document type is absent or one of the allowed values, that every category
has non-empty id/title/description with sibling-unique IDs, that every
guideline has non-empty id/title with IDs unique within its category, and
that every part has non-empty id/text with IDs unique within its
guideline. -/
theorem C2_round_trip_validity_amended (doc : SegmentedDocument)
    (hm1 : doc.DocumentMetadata.ID ≠ "")
    (hm2 : doc.DocumentMetadata.Title ≠ "")
    (hm3 : doc.DocumentMetadata.Description ≠ "")
    (hm4 : doc.DocumentMetadata.Author ≠ "")
    (hdt : doc.DocumentMetadata.DocumentType = "" ∨
      isValidDocumentType doc.DocumentMetadata.DocumentType = true)
    (hcats : doc.Categories ≠ [])
    (hnd : (doc.Categories.map SegmentCategory.ID).Nodup)
    (hc : ∀ c ∈ doc.Categories, c.ID ≠ "" ∧ c.Title ≠ "" ∧
      c.Description ≠ "" ∧
      (c.Guidelines.map SegmentGuideline.ID).Nodup ∧
      ∀ g ∈ c.Guidelines, g.ID ≠ "" ∧ g.Title ≠ "" ∧
        (g.Parts.map SegmentPart.ID).Nodup ∧
        ∀ q ∈ g.Parts, q.ID ≠ "" ∧ q.Text ≠ "") :
    (Validate false (Convert doc)).Valid = true := by
  have hmeta : validateMetadata false (convertMetadata doc.DocumentMetadata)
      = [] := by
    unfold validateMetadata
    rw [convertMetadata_Id, convertMetadata_Title,
      convertMetadata_Description, convertMetadata_Author,
      convertMetadata_DocumentType, convertMetadata_MappingReferences,
      if_neg hm1, if_neg hm2, if_neg hm3, if_neg hm4]
    have happ : (match (convertMetadata doc.DocumentMetadata).Applicability
        with
        | some app => validateApplicability app
        | none => []) = [] := by
      split
      · simp [validateApplicability]
      · rfl
    rcases hdt with h | h
    · rw [h]
      rw [if_neg (show ¬ ("" ≠ "") by simp)]
      simp only [Bool.false_eq_true, if_false, happ, validateMappingReferences,
        List.append_nil, List.nil_append]
    · have hne : doc.DocumentMetadata.DocumentType ≠ "" := by
        intro e
        rw [e] at h
        simp [isValidDocumentType] at h
      rw [if_pos hne, h]
      simp only [Bool.not_true, Bool.false_eq_true, if_false, happ,
        validateMappingReferences, List.append_nil, List.nil_append]
  have hcatsE : validateCategories (doc.Categories.map convertCategory)
      = [] := by
    unfold validateCategories
    rw [if_neg (by
      simp only [List.isEmpty_eq_true, List.map_eq_nil_iff]
      exact hcats)]
    apply validateCategoriesAux_nil
    · intro c' hc' q
      rcases List.mem_map.mp hc' with ⟨c, hcm, rfl⟩
      rcases hc c hcm with ⟨h1, h2, h3, h4, h5⟩
      apply validateCategory_nil
      · exact h1
      · exact h2
      · exact h3
      · intro g' hg' q'
        rcases List.mem_map.mp hg' with ⟨g, hgm, rfl⟩
        rcases h5 g hgm with ⟨k1, k2, k3, k4⟩
        apply validateGuideline_nil
        · exact k1
        · exact k2
        · rfl
        · rfl
        · rfl
        · intro q hq
          rcases List.mem_map.mp hq with ⟨sp, hsp, rfl⟩
          exact k4 sp hsp
        · show ((g.Parts.map convertPart).map L1.Part.Id).Nodup
          rw [List.map_map]
          exact k3
      · show ((c.Guidelines.map convertGuideline).map L1.Guideline.Id).Nodup
        rw [List.map_map]
        exact h4
      · intro g' hg'
        rcases List.mem_map.mp hg' with ⟨g, hgm, rfl⟩
        exact (h5 g hgm).1
    · rw [List.map_map]
      exact hnd
    · intro c' hc'
      rcases List.mem_map.mp hc' with ⟨c, hcm, rfl⟩
      exact (hc c hcm).1
    · simp
  unfold Validate Convert
  dsimp only
  rw [hmeta, hcatsE]
  rfl

/-- Witness for C2: the amended statement applied to a fully-populated
concrete segmented document. -/
theorem C2_round_trip_validity_witness :
    (Validate false (Convert validSegDoc)).Valid = true :=
  C2_round_trip_validity_amended validSegDoc (by decide) (by decide)
    (by decide) (by decide) (Or.inl rfl) (by decide) (by decide) (by decide)

/-! ### C4: version monotonicity of sequential saves -/

/-- The head version of a metadata list (0 when empty), i.e. what
`getLatestVersion` reads off `ListVersions`. -/
def headVersion : List StorageMetadata → Nat
  | [] => 0
  | m :: _ => m.Version

/-- The maximum version in a metadata list. -/
def maxVersion (l : List StorageMetadata) : Nat :=
  l.foldr (fun m acc => max m.Version acc) 0

lemma getLatestVersion_eq_headVersion (st : Store) (id t : String) :
    getLatestVersion st id t = headVersion (ListVersions st id t) := by
  unfold getLatestVersion headVersion
  rfl

lemma headVersion_insertVersionDesc (m : StorageMetadata)
    (l : List StorageMetadata) :
    headVersion (insertVersionDesc m l) = max m.Version (headVersion l) := by
  induction l with
  | nil => simp [insertVersionDesc, headVersion]
  | cons x xs ih =>
    unfold insertVersionDesc
    split
    · next h => simp [headVersion]; omega
    · next h => simp [headVersion]; omega

lemma headVersion_sortVersionDesc (l : List StorageMetadata) :
    headVersion (sortVersionDesc l) = maxVersion l := by
  induction l with
  | nil => rfl
  | cons m xs ih =>
    show headVersion (insertVersionDesc m (sortVersionDesc xs)) = _
    rw [headVersion_insertVersionDesc, ih]
    rfl

/-- The parsed-artifact sidecar written for version `v`. -/
def pmeta (now : Int) (id : String) (v : Nat) : StorageMetadata :=
  { DocumentID := id, Version := v, Typ := "parsed", StoredAt := now }

/-- The in-memory document after the save's version-field mutation. -/
def setParsedVer (d : ParsedDocument) (v : Nat) : ParsedDocument :=
  { d with Metadata := { d.Metadata with Version := v } }

/-- The version directory written by the save of version `v`. -/
def parsedDir (now : Int) (id : String) (v : Nat) (d : ParsedDocument) :
    DirRec :=
  { docID := id, ver := v, parsed := some (setParsedVer d v),
    metaParsed := some (pmeta now id v) }

/-- The canonical store contents after saving `ds` in order, starting above
base version `k`. -/
def canonDirs (now : Int) (id : String) : Nat → List ParsedDocument →
    List DirRec
  | _, [] => []
  | k, d :: ds => parsedDir now id (k + 1) d :: canonDirs now id (k + 1) ds

/-- The ascending sidecar list of the canonical store. -/
def ascMetas (now : Int) (id : String) : Nat → Nat → List StorageMetadata
  | _, 0 => []
  | k, n + 1 => pmeta now id (k + 1) :: ascMetas now id (k + 1) n

lemma collectMetas_canon (now : Int) (id : String) :
    ∀ (ds : List ParsedDocument) (k : Nat),
      (((canonDirs now id k ds).filter
            (fun d => d.docID = id)).filterMap
          (fun d => if ("parsed" : String) ≠ "" then readDirMeta d "parsed"
            else none)).filter
        (fun m => ("parsed" : String) = "" || m.Typ = "parsed")
        = ascMetas now id k ds.length := by
  intro ds
  induction ds with
  | nil => intro k; rfl
  | cons d ds ih =>
    intro k
    have h2 := ih (k + 1)
    simp only [canonDirs, List.length_cons, ascMetas, List.filter_cons,
      List.filterMap_cons]
    simp [parsedDir, readDirMeta, pmeta] at h2 ⊢
    exact h2

lemma listVersions_canon (now : Int) (id : String)
    (ds : List ParsedDocument) (k : Nat) :
    ListVersions ⟨canonDirs now id k ds⟩ id "parsed" =
      sortVersionDesc (ascMetas now id k ds.length) := by
  unfold ListVersions
  dsimp only
  rw [collectMetas_canon]

lemma maxVersion_ascMetas (now : Int) (id : String) :
    ∀ (n k : Nat), maxVersion (ascMetas now id k n) =
      if n = 0 then 0 else k + n := by
  intro n
  induction n with
  | zero => intro k; rfl
  | succ n ih =>
    intro k
    unfold ascMetas maxVersion
    simp only [List.foldr_cons]
    have h2 := ih (k + 1)
    unfold maxVersion at h2
    rw [h2]
    rcases Nat.eq_zero_or_pos n with h | h
    · subst h
      simp [pmeta]
    · have hn : n ≠ 0 := by omega
      simp only [hn, if_false, Nat.succ_ne_zero, pmeta]
      omega

lemma getLatestVersion_canon (now : Int) (id : String)
    (ds : List ParsedDocument) :
    getLatestVersion ⟨canonDirs now id 0 ds⟩ id "parsed" = ds.length := by
  rw [getLatestVersion_eq_headVersion, listVersions_canon,
    headVersion_sortVersionDesc, maxVersion_ascMetas]
  rcases Nat.eq_zero_or_pos ds.length with h | h
  · simp [h]
  · have : ds.length ≠ 0 := by omega
    simp [this]

lemma upsertDirList_fresh (id : String) (v : Nat) (f : DirRec → DirRec) :
    ∀ l : List DirRec, (∀ d ∈ l, ¬(d.docID = id ∧ d.ver = v)) →
      upsertDirList id v f l = l ++ [f { docID := id, ver := v }] := by
  intro l
  induction l with
  | nil => intro _; rfl
  | cons x xs ih =>
    intro h
    unfold upsertDirList
    rw [if_neg (h x (by simp)), ih (fun d hd => h d (by simp [hd]))]
    simp

lemma canonDirs_ver_le (now : Int) (id : String) :
    ∀ (ds : List ParsedDocument) (k : Nat) (d : DirRec),
      d ∈ canonDirs now id k ds → d.ver ≤ k + ds.length := by
  intro ds
  induction ds with
  | nil => intro k d h; cases h
  | cons x xs ih =>
    intro k d h
    rcases List.mem_cons.mp h with h | h
    · rw [h]
      simp [parsedDir]
    · have := ih (k + 1) d h
      simp only [List.length_cons]
      omega

lemma canonDirs_append (now : Int) (id : String) (d : ParsedDocument) :
    ∀ (xs : List ParsedDocument) (k : Nat),
      canonDirs now id k (xs ++ [d]) =
        canonDirs now id k xs ++ [parsedDir now id (k + xs.length + 1) d] := by
  intro xs
  induction xs with
  | nil => intro k; rfl
  | cons x xs ih =>
    intro k
    have h1 : canonDirs now id k ((x :: xs) ++ [d])
        = parsedDir now id (k + 1) x ::
            canonDirs now id (k + 1) (xs ++ [d]) := rfl
    rw [h1, ih (k + 1)]
    have h2 : k + 1 + xs.length + 1 = k + (x :: xs).length + 1 := by
      simp
      omega
    rw [h2]
    rfl

lemma saveParsed_canon (now : Int) (id : String)
    (pre : List ParsedDocument) (d : ParsedDocument)
    (hd : d.Metadata.DocumentID = id) :
    SaveParsed now ⟨canonDirs now id 0 pre⟩ d =
      (⟨canonDirs now id 0 (pre ++ [d])⟩,
        setParsedVer d (pre.length + 1)) := by
  unfold SaveParsed
  dsimp only
  rw [hd]
  rw [show getNextVersion ⟨canonDirs now id 0 pre⟩ id "parsed"
      = pre.length + 1 by
    unfold getNextVersion
    rw [getLatestVersion_canon]]
  unfold upsertDir
  dsimp only
  rw [upsertDirList_fresh id (pre.length + 1) _ (canonDirs now id 0 pre)
    (by
      intro d' hd' hcontra
      have := canonDirs_ver_le now id pre 0 d' hd'
      omega)]
  rw [canonDirs_append]
  simp only [Nat.zero_add]
  simp [parsedDir, setParsedVer, pmeta, hd]

lemma saveParsedAll_canon (now : Int) (id : String) :
    ∀ (docs pre : List ParsedDocument),
      (∀ d ∈ docs, d.Metadata.DocumentID = id) →
      saveParsedAll now ⟨canonDirs now id 0 pre⟩ docs =
        (⟨canonDirs now id 0 (pre ++ docs)⟩,
          List.range' (pre.length + 1) docs.length) := by
  intro docs
  induction docs with
  | nil =>
    intro pre _
    simp [saveParsedAll, List.range']
  | cons d ds ih =>
    intro pre h
    unfold saveParsedAll
    rw [saveParsed_canon now id pre d (h d (by simp))]
    dsimp only
    rw [ih (pre ++ [d]) (fun x hx => h x (by simp [hx]))]
    simp only [List.length_append, List.length_singleton, List.length_cons,
      List.append_assoc, List.singleton_append, List.range']
    have hv : (setParsedVer d (pre.length + 1)).Metadata.Version
        = pre.length + 1 := rfl
    rw [hv, show pre.length + ([].length + 1) + 1 = pre.length + 1 + 1 by
      simp]

/-- Claim C4.  Starting from an empty store, saving N parsed documents for
one document ID sequentially assigns versions 1, 2, …, N in order (each
save takes the greatest existing version for that document/type plus one),
and afterwards loading version 0 ("latest") yields the same result as
loading version N. -/
theorem C4_version_monotonicity (now : Int) (id : String)
    (docs : List ParsedDocument)
    (h : ∀ d ∈ docs, d.Metadata.DocumentID = id) :
    (saveParsedAll now Store.empty docs).2 =
      List.range' 1 docs.length ∧
    LoadParsed (saveParsedAll now Store.empty docs).1 id 0 =
      LoadParsed (saveParsedAll now Store.empty docs).1 id docs.length := by
  have hall := saveParsedAll_canon now id docs [] h
  simp only [List.nil_append, List.length_nil, Nat.zero_add] at hall
  have hempty : Store.empty = ⟨canonDirs now id 0 []⟩ := rfl
  rw [hempty, hall]
  refine ⟨rfl, ?_⟩
  rcases docs with _ | ⟨d0, rest⟩
  · rfl
  · have hlatest := getLatestVersion_canon now id (d0 :: rest)
    unfold LoadParsed
    rw [if_pos rfl, if_neg (by simp), hlatest]

/-- Witness for C4: three sequential saves of concrete documents get
versions [1, 2, 3] and loading latest equals loading version 3. -/
def c4Doc (n : Nat) : ParsedDocument :=
  { Metadata :=
      { SourceFile := toString n, Parser := "p", ParsedAt := 0, Version := 0,
        DocumentID := "doc" },
    Pages := [] }

theorem C4_version_monotonicity_witness :
    (saveParsedAll 7 Store.empty [c4Doc 1, c4Doc 2, c4Doc 3]).2 = [1, 2, 3] ∧
    LoadParsed (saveParsedAll 7 Store.empty [c4Doc 1, c4Doc 2, c4Doc 3]).1
        "doc" 0 =
      LoadParsed (saveParsedAll 7 Store.empty [c4Doc 1, c4Doc 2, c4Doc 3]).1
        "doc" 3 := by
  have h := C4_version_monotonicity 7 "doc" [c4Doc 1, c4Doc 2, c4Doc 3]
    (by decide)
  exact ⟨h.1, h.2⟩

end GemaraPipeline
